import Mathlib

/-!
# Cluster lifecycle orchestration of the postgres operator

A shallow embedding of `operator/cluster/cluster.go`: the strategy registry and the
routines `AddClusterBase`, `DeleteClusterBase`, `AddUpgradeBase`, `ScaleBase`,
`ScaleDownBase` and `createDatabaseSecrets`.

The routines talk to the platform through collaborators that live in other packages
(`kubeapi`, `pvc`, `util`, `operator`, the `Strategy1` implementation, the REST
client).  Every such collaborator is a field of `Env`: a function of the history of
calls made so far and of the call's arguments, so an answer may depend on anything
that happened before.  Each routine threads the history (`List Event`) explicitly
and returns it together with the Go results and the resource it received by pointer.
Logging is not an effect of interest and is left out.
-/

namespace Cluster

/-! ## Data model -/

/-- Go `map[string]string`, as an association list. -/
abbrev StringMap := List (String × String)

/-- Go `m[k]`: the value stored under `k`, the empty string when `k` is absent. -/
def mapGet (m : StringMap) (k : String) : String :=
  (m.lookup k).getD ""

/-- Go `m[k] = v`. -/
def mapSet (m : StringMap) (k v : String) : StringMap :=
  (k, v) :: m.filter (fun p => p.1 != k)

/-- The struct `crv1.PgStorageSpec`. -/
structure PgStorageSpec where
  Name : String := ""
  StorageClass : String := ""
  AccessMode : String := ""
  Size : String := ""
  StorageType : String := ""
  SupplementalGroups : String := ""
  Fsgroup : String := ""
deriving DecidableEq, Repr

/-- The struct `crv1.PgContainerResources`. -/
structure PgContainerResources where
  RequestsMemory : String := ""
  RequestsCPU : String := ""
  LimitsMemory : String := ""
  LimitsCPU : String := ""
deriving DecidableEq, Repr

/-- The fields of `crv1.PgclusterSpec` that `cluster.go` reads or writes. -/
structure PgclusterSpec where
  Name : String := ""
  ClusterName : String := ""
  Port : String := ""
  Strategy : String := ""
  Status : String := ""
  Replicas : String := ""
  Password : String := ""
  RootPassword : String := ""
  PrimaryPassword : String := ""
  SecretFrom : String := ""
  RootSecretName : String := ""
  PrimarySecretName : String := ""
  UserSecretName : String := ""
  UserLabels : StringMap := []
  PrimaryStorage : PgStorageSpec := {}
  ContainerResources : PgContainerResources := {}
deriving DecidableEq, Repr

/-- The resource `crv1.Pgcluster`. -/
structure Pgcluster where
  Spec : PgclusterSpec := {}
deriving DecidableEq, Repr

/-- The fields of `crv1.PgreplicaSpec` that `cluster.go` reads or writes. -/
structure PgreplicaSpec where
  Name : String := ""
  ClusterName : String := ""
  Status : String := ""
  ReplicaStorage : PgStorageSpec := {}
  ContainerResources : PgContainerResources := {}
  UserLabels : StringMap := []
deriving DecidableEq, Repr

/-- The part of `meta_v1.ObjectMeta` that `cluster.go` fills in. -/
structure ObjectMeta where
  Name : String := ""
  Labels : StringMap := []
deriving DecidableEq, Repr

/-- The struct `crv1.PgreplicaStatus`. -/
structure PgreplicaStatus where
  State : String := ""
  Message : String := ""
deriving DecidableEq, Repr

/-- The resource `crv1.Pgreplica`. -/
structure Pgreplica where
  ObjectMeta : ObjectMeta := {}
  Spec : PgreplicaSpec := {}
  Status : PgreplicaStatus := {}
deriving DecidableEq, Repr

/-- The fields of `crv1.PgupgradeSpec` that `cluster.go` reads. -/
structure PgupgradeSpec where
  Name : String := ""
  UpgradeType : String := ""
  CCPImageTag : String := ""
deriving DecidableEq, Repr

/-- The resource `crv1.Pgupgrade`. -/
structure Pgupgrade where
  Spec : PgupgradeSpec := {}
deriving DecidableEq, Repr

/-- The struct `ServiceTemplateFields` of `cluster.go`. -/
structure ServiceTemplateFields where
  Name : String
  ClusterName : String
  Port : String
  ServiceType : String
deriving DecidableEq, Repr

/-- The constants of the packages `crv1` and `util` that `cluster.go` names.  Their
declarations are outside the embedded file, so their values are parameters. -/
structure Consts where
  UpgradeCompletedStatus : String
  RootSecretSuffix : String
  PrimarySecretSuffix : String
  UserSecretSuffix : String
  PgclusterResourcePlural : String
  PgreplicaResourcePlural : String
  PgupgradeResourcePlural : String
  PgreplicaStateCreated : String
  LABEL_ARCHIVE : String
  LABEL_BACKREST : String
  LABEL_PGPOOL : String
  LABEL_PGBOUNCER : String
  LABEL_PG_CLUSTER : String
  LABEL_NAME : String

/-- The operator-wide configuration `operator.Pgo`, as far as `cluster.go` reads it. -/
structure PgoConfig where
  Storage : List (String × PgStorageSpec)
  BackupStorage : String
  ReplicaStorage : String
  ServiceType : String
  GetStorageSpec : String → PgStorageSpec

/-! ## Effects -/

/-- A call that leaves the routine: a platform API request, a storage or service
collaborator call, or an operation of a strategy (tagged with the registry key the
strategy was found under).  The client handles, which every call receives unchanged,
and the constant last argument `true` of `AddPgpool` and `AddPgbouncer` are left out. -/
inductive Call where
  | GetPVC (name ns : String)
  | CreatePVC (storage : PgStorageSpec) (name clusterName ns : String)
  | GetPasswordFromSecret (ns secretName : String)
  | CreateSecret (clusterName secretName username password ns : String)
  | Patch (path value resource name ns : String)
  | Getpgcluster (name ns : String)
  | Deletepgupgrade (name ns : String)
  | CreateService (fields : ServiceTemplateFields) (ns : String)
  | PostPgreplica (resource ns : String) (body : Pgreplica)
  | AutoFailoverClear (name ns : String)
  | AddPgpool (cl : Pgcluster) (ns : String)
  | AddPgbouncer (cl : Pgcluster) (ns : String)
  | StrategyAddCluster (key : String) (cl : Pgcluster) (ns pvcName : String)
  | StrategyDeleteCluster (key : String) (cl : Pgcluster) (ns : String)
  | StrategyScale (key : String) (replica : Pgreplica) (ns pvcName : String) (cluster : Pgcluster)
  | StrategyDeleteReplica (key : String) (replica : Pgreplica) (ns : String)
  | StrategyMinorUpgrade (key : String) (cl : Pgcluster) (upgrade : Pgupgrade) (ns : String)
  | StrategyMajorUpgrade (key : String) (cl : Pgcluster) (upgrade : Pgupgrade) (ns : String)
deriving DecidableEq, Repr

/-- A completed call with the Go `error` it returned (`none` is `nil`, also for the
collaborators that return nothing). -/
structure Event where
  call : Call
  err : Option String
deriving DecidableEq, Repr

/-- The history of a run: the completed calls, oldest first. -/
abbrev Trace := List Event

/-- Append a completed call to the history. -/
def record (tr : Trace) (c : Call) (err : Option String) : Trace :=
  tr ++ [⟨c, err⟩]

/-- The interface `Strategy` of `cluster.go`, restricted to the operations that the
routines of the file invoke.  Each operation sees the history and returns a Go
`error`. -/
structure Strategy where
  Scale : Trace → Pgreplica → String → String → Pgcluster → Option String
  AddCluster : Trace → Pgcluster → String → String → Option String
  DeleteCluster : Trace → Pgcluster → String → Option String
  DeleteReplica : Trace → Pgreplica → String → Option String
  MinorUpgrade : Trace → Pgcluster → Pgupgrade → String → Option String
  MajorUpgrade : Trace → Pgcluster → Pgupgrade → String → Option String

/-- The collaborators of `cluster.go`.  A pair result is the Go multi-value return,
with the `error` last. -/
structure Env where
  /-- The function `kubeapi.GetPVC`: `(found, err)`. -/
  GetPVC : Trace → String → String → Bool × Option String
  /-- The function `pvc.CreatePVC`: `(pvcName, err)`. -/
  CreatePVC : Trace → PgStorageSpec → String → String → String → String × Option String
  /-- The function `util.GetPasswordFromSecret`: `(password, err)`. -/
  GetPasswordFromSecret : Trace → String → String → String × Option String
  /-- The function `util.CreateSecret`. -/
  CreateSecret : Trace → String → String → String → String → String → Option String
  /-- The function `util.Patch`. -/
  Patch : Trace → String → String → String → String → String → Option String
  /-- The function `util.GeneratePassword`. -/
  GeneratePassword : Trace → Nat → String
  /-- The function `util.RandStringBytesRmndr`. -/
  RandStringBytesRmndr : Trace → Nat → String
  /-- The function `kubeapi.Getpgcluster`: the cluster it fills in, and `err`. -/
  Getpgcluster : Trace → String → String → Pgcluster × Option String
  /-- The function `kubeapi.Deletepgupgrade`. -/
  Deletepgupgrade : Trace → String → String → Option String
  /-- The function `CreateService` of the package. -/
  CreateService : Trace → ServiceTemplateFields → String → Option String
  /-- The request `client.Post().Resource(..).Namespace(..).Body(..).Do().Into(..)`. -/
  PostPgreplica : Trace → String → String → Pgreplica → Option String
  /-- The value `Strategy1{}`. -/
  Strategy1 : Strategy

/-- The registry `strategyMap` as `init` leaves it: one entry, under the key "1". -/
def strategyMap (env : Env) : List (String × Strategy) :=
  [("1", env.Strategy1)]

/-! ## `strconv.Atoi` -/

/-- The value of a decimal digit, `none` for any other character. -/
def digitVal (c : Char) : Option Nat :=
  if '0' ≤ c ∧ c ≤ '9' then some (c.toNat - '0'.toNat) else none

/-- Accumulate decimal digits, failing on the first character that is not one. -/
def parseDigits : List Char → Nat → Option Nat
  | [], acc => some acc
  | c :: cs, acc =>
    match digitVal c with
    | none => none
    | some d => parseDigits cs (acc * 10 + d)

/-- Go `strconv.Atoi` for a 64-bit `int`: an optional sign, then one or more decimal
digits, and the value must fit the type.  Returns `(value, err)`. -/
def Atoi (s : String) : Int × Option String :=
  match s.data with
  | [] => (0, some "invalid syntax")
  | c :: cs =>
    let body := if c = '-' ∨ c = '+' then cs else c :: cs
    if body = [] then (0, some "invalid syntax") else
    match parseDigits body 0 with
    | none => (0, some "invalid syntax")
    | some v =>
      if c = '-' then
        if v ≤ 2 ^ 63 then (-(v : Int), none) else (-(2 ^ 63 : Int), some "value out of range")
      else
        if v < 2 ^ 63 then ((v : Int), none) else ((2 ^ 63 - 1 : Int), some "value out of range")

/-! ## The routines of `cluster.go` -/

/-- The statement `if cl.Spec.Strategy == "" { cl.Spec.Strategy = "1" }` of
`AddClusterBase` (188–191), `DeleteClusterBase` (287–289) and `AddUpgradeBase`
(317–320). -/
def defaultStrategy (cl : Pgcluster) : Pgcluster :=
  if cl.Spec.Strategy = "" then { cl with Spec := { cl.Spec with Strategy := "1" } } else cl

/-- The function `createDatabaseSecrets` (lines 489–561).  Returns the four Go
results, the cluster as the assignments through the pointer leave it, and the
history. -/
def createDatabaseSecrets (env : Env) (consts : Consts) (cl : Pgcluster) (ns : String)
    (tr : Trace) : (String × String × String × Option String) × Pgcluster × Trace :=
  -- pgroot
  let username := "postgres"
  let suffix := consts.RootSecretSuffix
  let secretName := cl.Spec.Name ++ suffix
  let pgPassword := env.GeneratePassword tr 10
  let pgPassword := if cl.Spec.RootPassword ≠ "" then cl.Spec.RootPassword else pgPassword
  let err := env.CreateSecret tr cl.Spec.Name secretName username pgPassword ns
  let tr := record tr (.CreateSecret cl.Spec.Name secretName username pgPassword ns) err
  let cl : Pgcluster := { cl with Spec := { cl.Spec with RootSecretName := secretName } }
  let err := env.Patch tr "/spec/rootsecretname" secretName consts.PgclusterResourcePlural
    cl.Spec.Name ns
  let tr := record tr (.Patch "/spec/rootsecretname" secretName consts.PgclusterResourcePlural
    cl.Spec.Name ns) err
  -- primary
  let username := "primaryuser"
  let suffix := consts.PrimarySecretSuffix
  let secretName := cl.Spec.Name ++ suffix
  let primaryPassword := env.GeneratePassword tr 10
  let primaryPassword :=
    if cl.Spec.PrimaryPassword ≠ "" then cl.Spec.PrimaryPassword else primaryPassword
  let err := env.CreateSecret tr cl.Spec.Name secretName username primaryPassword ns
  let tr := record tr (.CreateSecret cl.Spec.Name secretName username primaryPassword ns) err
  let cl : Pgcluster := { cl with Spec := { cl.Spec with PrimarySecretName := secretName } }
  let err := env.Patch tr "/spec/primarysecretname" secretName consts.PgclusterResourcePlural
    cl.Spec.Name ns
  let tr := record tr (.Patch "/spec/primarysecretname" secretName consts.PgclusterResourcePlural
    cl.Spec.Name ns) err
  -- pguser
  let username := "testuser"
  let suffix := consts.UserSecretSuffix
  let secretName := cl.Spec.Name ++ suffix
  let testPassword := env.GeneratePassword tr 10
  let testPassword := if cl.Spec.Password ≠ "" then cl.Spec.Password else testPassword
  let err := env.CreateSecret tr cl.Spec.Name secretName username testPassword ns
  let tr := record tr (.CreateSecret cl.Spec.Name secretName username testPassword ns) err
  let cl : Pgcluster := { cl with Spec := { cl.Spec with UserSecretName := secretName } }
  let err := env.Patch tr "/spec/usersecretname" secretName consts.PgclusterResourcePlural
    cl.Spec.Name ns
  let tr := record tr (.Patch "/spec/usersecretname" secretName consts.PgclusterResourcePlural
    cl.Spec.Name ns) err
  ((pgPassword, primaryPassword, testPassword, err), cl, tr)

/-- Lines 110–123 of `AddClusterBase`: reuse the claim named after the cluster or
create it.  `none` stands for the early `return`. -/
def acquirePrimaryPVC (env : Env) (cl : Pgcluster) (ns : String) (tr : Trace) :
    Option String × Trace :=
  let r := env.GetPVC tr cl.Spec.Name ns
  let found := r.1
  let tr := record tr (.GetPVC cl.Spec.Name ns) r.2
  if found then
    (some cl.Spec.Name, tr)
  else
    let c := env.CreatePVC tr cl.Spec.PrimaryStorage cl.Spec.Name cl.Spec.Name ns
    let tr := record tr (.CreatePVC cl.Spec.PrimaryStorage cl.Spec.Name cl.Spec.Name ns) c.2
    if c.2.isSome then (none, tr) else (some c.1, tr)

/-- Lines 125–137 of `AddClusterBase`: the archive claim.  `false` stands for the
early `return`. -/
def acquireArchivePVC (env : Env) (cl : Pgcluster) (ns : String) (tr : Trace) :
    Bool × Trace :=
  if mapGet cl.Spec.UserLabels "archive" = "true" then
    let pvcName := cl.Spec.Name ++ "-xlog"
    let r := env.GetPVC tr pvcName ns
    let found := r.1
    let tr := record tr (.GetPVC pvcName ns) r.2
    if found then
      (true, tr)
    else
      let c := env.CreatePVC tr cl.Spec.PrimaryStorage pvcName cl.Spec.Name ns
      let tr := record tr (.CreatePVC cl.Spec.PrimaryStorage pvcName cl.Spec.Name ns) c.2
      if c.2.isSome then (false, tr) else (true, tr)
  else
    (true, tr)

/-- Lines 138–159 of `AddClusterBase`: the backrest repository claim, whose storage
comes from the operator configuration.  `false` stands for the early `return`. -/
def acquireBackrestPVC (env : Env) (consts : Consts) (pgo : PgoConfig) (cl : Pgcluster)
    (ns : String) (tr : Trace) : Bool × Trace :=
  if mapGet cl.Spec.UserLabels consts.LABEL_BACKREST = "true" then
    let pvcName := cl.Spec.Name ++ "-backrestrepo"
    let r := env.GetPVC tr pvcName ns
    let found := r.1
    let tr := record tr (.GetPVC pvcName ns) r.2
    if found then
      (true, tr)
    else
      let pgoStorage := (pgo.Storage.lookup pgo.BackupStorage).getD {}
      let storage : PgStorageSpec :=
        { StorageClass := pgoStorage.StorageClass
          AccessMode := pgoStorage.AccessMode
          Size := pgoStorage.Size
          StorageType := pgoStorage.StorageType
          SupplementalGroups := pgoStorage.SupplementalGroups
          Fsgroup := pgoStorage.Fsgroup }
      let c := env.CreatePVC tr storage pvcName cl.Spec.Name ns
      let tr := record tr (.CreatePVC storage pvcName cl.Spec.Name ns) c.2
      if c.2.isSome then (false, tr) else (true, tr)
  else
    (true, tr)

/-- Lines 163–168 of `AddClusterBase`: the user's password overrides the root and
primary passwords. -/
def applyPassword (cl : Pgcluster) : Pgcluster :=
  if cl.Spec.Password ≠ "" then
    { cl with Spec := { cl.Spec with
        RootPassword := cl.Spec.Password
        Password := cl.Spec.Password
        PrimaryPassword := cl.Spec.Password } }
  else cl

/-- Lines 170–180 of `AddClusterBase`: fetch the three passwords of the cluster
named by `SecretFrom`.  `false` stands for the early `return`. -/
def applySecretFrom (env : Env) (consts : Consts) (cl : Pgcluster) (ns : String)
    (tr : Trace) : Bool × Pgcluster × Trace :=
  if cl.Spec.SecretFrom ≠ "" then
    let r1 := env.GetPasswordFromSecret tr ns (cl.Spec.SecretFrom ++ consts.RootSecretSuffix)
    let tr := record tr
      (.GetPasswordFromSecret ns (cl.Spec.SecretFrom ++ consts.RootSecretSuffix)) r1.2
    let cl : Pgcluster := { cl with Spec := { cl.Spec with RootPassword := r1.1 } }
    let r2 := env.GetPasswordFromSecret tr ns (cl.Spec.SecretFrom ++ consts.UserSecretSuffix)
    let tr := record tr
      (.GetPasswordFromSecret ns (cl.Spec.SecretFrom ++ consts.UserSecretSuffix)) r2.2
    let cl : Pgcluster := { cl with Spec := { cl.Spec with Password := r2.1 } }
    let r3 := env.GetPasswordFromSecret tr ns
      (cl.Spec.SecretFrom ++ consts.PrimarySecretSuffix)
    let tr := record tr
      (.GetPasswordFromSecret ns (cl.Spec.SecretFrom ++ consts.PrimarySecretSuffix)) r3.2
    let cl : Pgcluster := { cl with Spec := { cl.Spec with PrimaryPassword := r3.1 } }
    if r1.2.isSome ∨ r2.2.isSome ∨ r3.2.isSome then (false, cl, tr) else (true, cl, tr)
  else
    (true, cl, tr)

/-- The replica resource built by one iteration of the loop at lines 237–274. -/
def newReplica (consts : Consts) (pgo : PgoConfig) (cl : Pgcluster) (uniqueName : String) :
    Pgreplica :=
  let spec : PgreplicaSpec := {}
  let spec := { spec with ContainerResources := cl.Spec.ContainerResources }
  let spec := { spec with ReplicaStorage := pgo.GetStorageSpec pgo.ReplicaStorage }
  let spec := { spec with UserLabels := cl.Spec.UserLabels }
  let labels : StringMap := []
  let labels := mapSet labels consts.LABEL_PG_CLUSTER cl.Spec.Name
  let spec := { spec with ClusterName := cl.Spec.Name }
  let labels := mapSet labels consts.LABEL_NAME (cl.Spec.Name ++ "-" ++ uniqueName)
  let spec := { spec with Name := mapGet labels consts.LABEL_NAME }
  { ObjectMeta := { Name := mapGet labels consts.LABEL_NAME, Labels := labels }
    Spec := spec
    Status := { State := consts.PgreplicaStateCreated, Message := "Created, not processed yet" } }

/-- The loop `for i := 0; i < replicaCount; i++` at lines 237–274, with `count`
iterations left: a failed request is logged and the loop goes on. -/
def createReplicas (env : Env) (consts : Consts) (pgo : PgoConfig) (cl : Pgcluster)
    (ns : String) : Nat → Trace → Trace
  | 0, tr => tr
  | count + 1, tr =>
    let uniqueName := env.RandStringBytesRmndr tr 4
    let newInstance := newReplica consts pgo cl uniqueName
    let err := env.PostPgreplica tr consts.PgreplicaResourcePlural ns newInstance
    let tr := record tr (.PostPgreplica consts.PgreplicaResourcePlural ns newInstance) err
    createReplicas env consts pgo cl ns count tr

/-- Lines 229–275 of `AddClusterBase`: parse the replica count and create the
replica resources.  A negative count runs the loop zero times. -/
def addReplicas (env : Env) (consts : Consts) (pgo : PgoConfig) (cl : Pgcluster)
    (ns : String) (tr : Trace) : Trace :=
  if cl.Spec.Replicas ≠ "" then
    let r := Atoi cl.Spec.Replicas
    let replicaCount := r.1
    if r.2.isSome then tr
    else createReplicas env consts pgo cl ns replicaCount.toNat tr
  else tr

/-- Lines 204–275 of `AddClusterBase`: everything after the strategy was found
under `key`. -/
def provisionCluster (env : Env) (consts : Consts) (pgo : PgoConfig) (key : String)
    (strategy : Strategy) (cl : Pgcluster) (ns pvcName : String) (tr : Trace) : Trace :=
  let serr := strategy.AddCluster tr cl ns pvcName
  let tr := record tr (.StrategyAddCluster key cl ns pvcName) serr
  let err := env.Patch tr "/spec/status" consts.UpgradeCompletedStatus
    consts.PgclusterResourcePlural cl.Spec.Name ns
  let tr := record tr (.Patch "/spec/status" consts.UpgradeCompletedStatus
    consts.PgclusterResourcePlural cl.Spec.Name ns) err
  let err := env.Patch tr "/spec/PrimaryStorage/name" pvcName
    consts.PgclusterResourcePlural cl.Spec.Name ns
  let tr := record tr (.Patch "/spec/PrimaryStorage/name" pvcName
    consts.PgclusterResourcePlural cl.Spec.Name ns) err
  let tr :=
    if mapGet cl.Spec.UserLabels consts.LABEL_PGPOOL = "true" then
      record tr (.AddPgpool cl ns) none
    else tr
  let tr :=
    if mapGet cl.Spec.UserLabels consts.LABEL_PGBOUNCER = "true" then
      record tr (.AddPgbouncer cl ns) none
    else tr
  addReplicas env consts pgo cl ns tr

/-- The function `AddClusterBase` (lines 102–277).  Returns the cluster as the
assignments through the pointer leave it, and the history. -/
def AddClusterBase (env : Env) (consts : Consts) (pgo : PgoConfig) (cl : Pgcluster)
    (ns : String) (tr : Trace) : Pgcluster × Trace :=
  if cl.Spec.Status = consts.UpgradeCompletedStatus then (cl, tr) else
  match acquirePrimaryPVC env cl ns tr with
  | (none, tr) => (cl, tr)
  | (some pvcName, tr) =>
    match acquireArchivePVC env cl ns tr with
    | (false, tr) => (cl, tr)
    | (true, tr) =>
      match acquireBackrestPVC env consts pgo cl ns tr with
      | (false, tr) => (cl, tr)
      | (true, tr) =>
        let cl := applyPassword cl
        match applySecretFrom env consts cl ns tr with
        | (false, cl, tr) => (cl, tr)
        | (true, cl, tr) =>
          match createDatabaseSecrets env consts cl ns tr with
          | ((_, _, _, err), cl, tr) =>
            if err.isSome then (cl, tr) else
            let cl := defaultStrategy cl
            match (strategyMap env).lookup cl.Spec.Strategy with
            | none => (cl, tr)
            | some strategy =>
              (cl, provisionCluster env consts pgo cl.Spec.Strategy strategy cl ns pvcName tr)

/-- The function `DeleteClusterBase` (lines 280–310). -/
def DeleteClusterBase (env : Env) (cl : Pgcluster) (ns : String) (tr : Trace) :
    Pgcluster × Trace :=
  let tr := record tr (.AutoFailoverClear cl.Spec.Name ns) none
  let cl := defaultStrategy cl
  match (strategyMap env).lookup cl.Spec.Strategy with
  | none => (cl, tr)
  | some strategy =>
    let serr := strategy.DeleteCluster tr cl ns
    let tr := record tr (.StrategyDeleteCluster cl.Spec.Strategy cl ns) serr
    let err := env.Deletepgupgrade tr cl.Spec.Name ns
    let tr := record tr (.Deletepgupgrade cl.Spec.Name ns) err
    (cl, tr)

/-- The function `AddUpgradeBase` (lines 313–353).  Returns the Go `error`, the
cluster as the assignment through the pointer leaves it, and the history. -/
def AddUpgradeBase (env : Env) (consts : Consts) (upgrade : Pgupgrade) (ns : String)
    (cl : Pgcluster) (tr : Trace) : Option String × Pgcluster × Trace :=
  let err : Option String := none
  let cl := defaultStrategy cl
  match (strategyMap env).lookup cl.Spec.Strategy with
  | none => (err, cl, tr)
  | some strategy =>
    let branch : Option (Option String × Trace) :=
      if upgrade.Spec.UpgradeType = "minor" then
        let err := strategy.MinorUpgrade tr cl upgrade ns
        let tr := record tr (.StrategyMinorUpgrade cl.Spec.Strategy cl upgrade ns) err
        if err = none then
          let err := env.Patch tr "/spec/upgradestatus" consts.UpgradeCompletedStatus
            consts.PgupgradeResourcePlural upgrade.Spec.Name ns
          let tr := record tr (.Patch "/spec/upgradestatus" consts.UpgradeCompletedStatus
            consts.PgupgradeResourcePlural upgrade.Spec.Name ns) err
          some (err, tr)
        else some (err, tr)
      else if upgrade.Spec.UpgradeType = "major" then
        let err := strategy.MajorUpgrade tr cl upgrade ns
        let tr := record tr (.StrategyMajorUpgrade cl.Spec.Strategy cl upgrade ns) err
        some (err, tr)
      else none
    match branch with
    | none => (err, cl, tr)
    | some (err, tr) =>
      if err = none then
        let fullVersion := upgrade.Spec.CCPImageTag
        let err := env.Patch tr "/spec/ccpimagetag" fullVersion consts.PgclusterResourcePlural
          upgrade.Spec.Name ns
        let tr := record tr (.Patch "/spec/ccpimagetag" fullVersion consts.PgclusterResourcePlural
          upgrade.Spec.Name ns) err
        (err, cl, tr)
      else (err, cl, tr)

/-- The function `ScaleBase` (lines 356–441).  Returns the replica, which the
routine never assigns to, and the history. -/
def ScaleBase (env : Env) (consts : Consts) (pgo : PgoConfig) (replica : Pgreplica)
    (ns : String) (tr : Trace) : Pgreplica × Trace :=
  if replica.Spec.Status = consts.UpgradeCompletedStatus then (replica, tr) else
  let g := env.Getpgcluster tr replica.Spec.ClusterName ns
  let cluster := g.1
  let tr := record tr (.Getpgcluster replica.Spec.ClusterName ns) g.2
  if g.2.isSome then (replica, tr) else
  let c := env.CreatePVC tr replica.Spec.ReplicaStorage replica.Spec.Name cluster.Spec.Name ns
  let pvcName := c.1
  let tr := record tr
    (.CreatePVC replica.Spec.ReplicaStorage replica.Spec.Name cluster.Spec.Name ns) c.2
  if c.2.isSome then (replica, tr) else
  let archive : Bool × Trace :=
    if mapGet cluster.Spec.UserLabels consts.LABEL_ARCHIVE = "true" then
      let a := env.CreatePVC tr cluster.Spec.PrimaryStorage (replica.Spec.Name ++ "-xlog")
        cluster.Spec.Name ns
      let tr := record tr (.CreatePVC cluster.Spec.PrimaryStorage (replica.Spec.Name ++ "-xlog")
        cluster.Spec.Name ns) a.2
      (!a.2.isSome, tr)
    else (true, tr)
  let tr := archive.2
  if !archive.1 then (replica, tr) else
  let backrest : Bool × Trace :=
    if mapGet cluster.Spec.UserLabels consts.LABEL_BACKREST = "true" then
      let b := env.CreatePVC tr cluster.Spec.PrimaryStorage (replica.Spec.Name ++ "-backrestrepo")
        cluster.Spec.Name ns
      let tr := record tr
        (.CreatePVC cluster.Spec.PrimaryStorage (replica.Spec.Name ++ "-backrestrepo")
          cluster.Spec.Name ns) b.2
      (!b.2.isSome, tr)
    else (true, tr)
  let tr := backrest.2
  if !backrest.1 then (replica, tr) else
  let err := env.Patch tr "/spec/replicastorage/name" pvcName consts.PgreplicaResourcePlural
    replica.Spec.Name ns
  let tr := record tr (.Patch "/spec/replicastorage/name" pvcName consts.PgreplicaResourcePlural
    replica.Spec.Name ns) err
  match (strategyMap env).lookup cluster.Spec.Strategy with
  | none => (replica, tr)
  | some strategy =>
    let serviceName := replica.Spec.ClusterName ++ "-replica"
    let serviceFields : ServiceTemplateFields :=
      { Name := serviceName
        ClusterName := replica.Spec.ClusterName
        Port := cluster.Spec.Port
        ServiceType := pgo.ServiceType }
    let err := env.CreateService tr serviceFields ns
    let tr := record tr (.CreateService serviceFields ns) err
    if err.isSome then (replica, tr) else
    let serr := strategy.Scale tr replica ns pvcName cluster
    let tr := record tr (.StrategyScale cluster.Spec.Strategy replica ns pvcName cluster) serr
    let err := env.Patch tr "/spec/status" consts.UpgradeCompletedStatus
      consts.PgreplicaResourcePlural replica.Spec.Name ns
    let tr := record tr (.Patch "/spec/status" consts.UpgradeCompletedStatus
      consts.PgreplicaResourcePlural replica.Spec.Name ns) err
    (replica, tr)

/-- The function `ScaleDownBase` (lines 444–471). -/
def ScaleDownBase (env : Env) (replica : Pgreplica) (ns : String) (tr : Trace) :
    Pgreplica × Trace :=
  let g := env.Getpgcluster tr replica.Spec.ClusterName ns
  let cluster := g.1
  let tr := record tr (.Getpgcluster replica.Spec.ClusterName ns) g.2
  if g.2.isSome then (replica, tr) else
  match (strategyMap env).lookup cluster.Spec.Strategy with
  | none => (replica, tr)
  | some strategy =>
    let serr := strategy.DeleteReplica tr replica ns
    let tr := record tr (.StrategyDeleteReplica cluster.Spec.Strategy replica ns) serr
    (replica, tr)

/-! ## Observations on a history -/

/-- The calls of a history, without their results. -/
def calls (tr : Trace) : List Call :=
  tr.map Event.call

/-- Whether a call is an operation of a strategy. -/
def Call.isStrategyOp : Call → Bool
  | .StrategyAddCluster .. => true
  | .StrategyDeleteCluster .. => true
  | .StrategyScale .. => true
  | .StrategyDeleteReplica .. => true
  | .StrategyMinorUpgrade .. => true
  | .StrategyMajorUpgrade .. => true
  | _ => false

/-- Whether a call touches the workload or marks it done: a strategy operation, the
creation of a service, of a pooler add-on or of a replica resource, the removal of an
upgrade resource, or a patch of a status, of the image tag or of the recorded primary
claim. -/
def Call.workloadAffecting : Call → Bool
  | .CreateService .. => true
  | .PostPgreplica .. => true
  | .AddPgpool .. => true
  | .AddPgbouncer .. => true
  | .Deletepgupgrade .. => true
  | .Patch path _ _ _ _ =>
    path = "/spec/status" || path = "/spec/ccpimagetag" || path = "/spec/upgradestatus"
      || path = "/spec/PrimaryStorage/name"
  | c => c.isStrategyOp

/-- Whether a call belongs to the steps that come before the registry lookup in one of
the five routines: claim lookup and creation, secret fetch and creation, the patches
of the three secret names and of the replica claim name, the lookup of the owning
cluster, and the clearing of the failover task. -/
def Call.precedesLookup : Call → Bool
  | .GetPVC .. => true
  | .CreatePVC .. => true
  | .GetPasswordFromSecret .. => true
  | .CreateSecret .. => true
  | .Getpgcluster .. => true
  | .AutoFailoverClear .. => true
  | .Patch path _ _ _ _ =>
    path = "/spec/rootsecretname" || path = "/spec/primarysecretname"
      || path = "/spec/usersecretname" || path = "/spec/replicastorage/name"
  | _ => false

/-- The replica resources that a history asked the platform to create, oldest first. -/
def replicaPosts (tr : Trace) : List Pgreplica :=
  tr.filterMap fun e =>
    match e.call with
    | .PostPgreplica _ _ body => some body
    | _ => none

/-- The passwords of the secrets that a history asked the platform to create. -/
def secretPasswords (tr : Trace) : List String :=
  tr.filterMap fun e =>
    match e.call with
    | .CreateSecret _ _ _ password _ => some password
    | _ => none

/-- Whether an event is a create request for the claim `c` in the namespace `ns`. -/
def createsClaim (c ns : String) (e : Event) : Bool :=
  match e.call with
  | .CreatePVC _ name _ ns1 => name = c && ns1 = ns
  | _ => false

/-- Whether an event is a create request for a claim. -/
def createsAnyClaim (e : Event) : Bool :=
  match e.call with
  | .CreatePVC .. => true
  | _ => false

/-- Whether an event is a create request for the claim `c` in `ns` that succeeded. -/
def createdClaim (c ns : String) (e : Event) : Bool :=
  createsClaim c ns e && e.err.isNone

/-- A platform that retains created claims: once a create request for a claim has
succeeded, every later lookup of that claim finds it. -/
def Retains (env : Env) : Prop :=
  ∀ (h : Trace) (c ns : String), (∃ e ∈ h, createdClaim c ns e = true) →
    (env.GetPVC h c ns).1 = true

/-- No claim has been created twice in the history. -/
def CreatedAtMostOnce (tr : Trace) : Prop :=
  ∀ c ns : String, (tr.filter (createdClaim c ns)).length ≤ 1

/-- The history `tr1` continues `tr` with events that all satisfy `P`. -/
def Extends (P : Event → Prop) (tr tr1 : Trace) : Prop :=
  ∃ new : Trace, tr1 = tr ++ new ∧ ∀ e ∈ new, P e

/-- The patch of the upgrade status issued by `AddUpgradeBase` (line 334). -/
def upgradeStatusPatch (consts : Consts) (upgrade : Pgupgrade) (ns : String) : Call :=
  .Patch "/spec/upgradestatus" consts.UpgradeCompletedStatus consts.PgupgradeResourcePlural
    upgrade.Spec.Name ns

/-- The patch of the image tag issued by `AddUpgradeBase` (line 345). -/
def imageTagPatch (consts : Consts) (upgrade : Pgupgrade) (ns : String) : Call :=
  .Patch "/spec/ccpimagetag" upgrade.Spec.CCPImageTag consts.PgclusterResourcePlural
    upgrade.Spec.Name ns

/-! ## Concrete collaborators for the examples -/

/-- A concrete choice of the constants of `crv1` and `util`. -/
def sampleConsts : Consts :=
  { UpgradeCompletedStatus := "completed"
    RootSecretSuffix := "-postgres-secret"
    PrimarySecretSuffix := "-primaryuser-secret"
    UserSecretSuffix := "-testuser-secret"
    PgclusterResourcePlural := "pgclusters"
    PgreplicaResourcePlural := "pgreplicas"
    PgupgradeResourcePlural := "pgupgrades"
    PgreplicaStateCreated := "Created"
    LABEL_ARCHIVE := "archive"
    LABEL_BACKREST := "pgo-backrest"
    LABEL_PGPOOL := "crunchy-pgpool"
    LABEL_PGBOUNCER := "crunchy-pgbouncer"
    LABEL_PG_CLUSTER := "pg-cluster"
    LABEL_NAME := "name" }

/-- A concrete operator configuration. -/
def samplePgo : PgoConfig :=
  { Storage := []
    BackupStorage := ""
    ReplicaStorage := ""
    ServiceType := "ClusterIP"
    GetStorageSpec := fun _ => {} }

/-- A strategy whose every operation succeeds. -/
def okStrategy : Strategy :=
  { Scale := fun _ _ _ _ _ => none
    AddCluster := fun _ _ _ _ => none
    DeleteCluster := fun _ _ _ => none
    DeleteReplica := fun _ _ _ => none
    MinorUpgrade := fun _ _ _ _ => none
    MajorUpgrade := fun _ _ _ _ => none }

/-- A platform on which every call succeeds: no claim exists yet, a created claim
gets the requested name, every secret holds the password "fetched", the generated
password is "generated", the generated replica suffix is "abcd", and the cluster
looked up is the default one under the requested name. -/
def okEnv : Env :=
  { GetPVC := fun _ _ _ => (false, none)
    CreatePVC := fun _ _ name _ _ => (name, none)
    GetPasswordFromSecret := fun _ _ _ => ("fetched", none)
    CreateSecret := fun _ _ _ _ _ _ => none
    Patch := fun _ _ _ _ _ _ => none
    GeneratePassword := fun _ _ => "generated"
    RandStringBytesRmndr := fun _ _ => "abcd"
    Getpgcluster := fun _ name _ => ({ Spec := { Name := name } }, none)
    Deletepgupgrade := fun _ _ _ => none
    CreateService := fun _ _ _ => none
    PostPgreplica := fun _ _ _ _ => none
    Strategy1 := okStrategy }

/-- A platform on which the creation of the root secret fails and everything else
succeeds. -/
def envRootSecretFails : Env :=
  { okEnv with
    CreateSecret := fun _ _ _ username _ _ =>
      if username = "postgres" then some "create failed" else none }

/-- A platform on which the patch of the upgrade status fails and everything else
succeeds. -/
def envStatusPatchFails : Env :=
  { okEnv with
    Patch := fun _ path _ _ _ _ =>
      if path = "/spec/upgradestatus" then some "patch failed" else none }

/-- A platform on which `Strategy1.AddCluster` fails and everything else succeeds. -/
def envAddClusterFails : Env :=
  { okEnv with
    Strategy1 := { okStrategy with AddCluster := fun _ _ _ _ => some "deploy failed" } }

/-- A platform on which both upgrade operations of `Strategy1` fail. -/
def envUpgradeFails : Env :=
  { okEnv with
    Strategy1 :=
      { okStrategy with
        MinorUpgrade := fun _ _ _ _ => some "minor failed"
        MajorUpgrade := fun _ _ _ _ => some "major failed" } }

/-- A cluster named "db" with every other field at its zero value. -/
def sampleCluster : Pgcluster :=
  { Spec := { Name := "db" } }

/-- A minor upgrade of the cluster "db" to the image tag "v2". -/
def minorUpgrade : Pgupgrade :=
  { Spec := { Name := "db", UpgradeType := "minor", CCPImageTag := "v2" } }

/-- A major upgrade of the cluster "db" to the image tag "v2". -/
def majorUpgrade : Pgupgrade :=
  { Spec := { Name := "db", UpgradeType := "major", CCPImageTag := "v2" } }

/-- An upgrade of the cluster "db" whose type is neither minor nor major. -/
def bogusUpgrade : Pgupgrade :=
  { Spec := { Name := "db", UpgradeType := "bogus", CCPImageTag := "v2" } }

/-- The name of the collaborator a call goes to, with the field path for a patch. -/
def Call.kind : Call → String
  | .GetPVC .. => "GetPVC"
  | .CreatePVC .. => "CreatePVC"
  | .GetPasswordFromSecret .. => "GetPasswordFromSecret"
  | .CreateSecret .. => "CreateSecret"
  | .Patch path _ _ _ _ => "Patch " ++ path
  | .Getpgcluster .. => "Getpgcluster"
  | .Deletepgupgrade .. => "Deletepgupgrade"
  | .CreateService .. => "CreateService"
  | .PostPgreplica .. => "PostPgreplica"
  | .AutoFailoverClear .. => "AutoFailoverClear"
  | .AddPgpool .. => "AddPgpool"
  | .AddPgbouncer .. => "AddPgbouncer"
  | .StrategyAddCluster .. => "Strategy.AddCluster"
  | .StrategyDeleteCluster .. => "Strategy.DeleteCluster"
  | .StrategyScale .. => "Strategy.Scale"
  | .StrategyDeleteReplica .. => "Strategy.DeleteReplica"
  | .StrategyMinorUpgrade .. => "Strategy.MinorUpgrade"
  | .StrategyMajorUpgrade .. => "Strategy.MajorUpgrade"

/-- Each event of a history as the collaborator called and the error it returned. -/
def outline (tr : Trace) : List (String × Option String) :=
  tr.map fun e => (e.call.kind, e.err)

/-- A cluster "db" with the password "X" and credentials to be taken from the cluster
"other". -/
def passwordCluster : Pgcluster :=
  { Spec := { Name := "db", Password := "X", SecretFrom := "other" } }

/-- A cluster "db" that asks for both poolers and for one replica. -/
def pooledCluster : Pgcluster :=
  { Spec :=
      { Name := "db"
        Replicas := "1"
        UserLabels := [("crunchy-pgpool", "true"), ("crunchy-pgbouncer", "true")] } }

/-- Lines 110–186 of `AddClusterBase` in one piece: the claims, the passwords and the
secrets.  `none` stands for an early `return`, `some pvcName` carries the name of the
primary claim on to the registry lookup.  Used to state facts about that part of the
routine; `AddClusterBase` itself is written out step by step. -/
def prepareCluster (env : Env) (consts : Consts) (pgo : PgoConfig) (cl : Pgcluster)
    (ns : String) (tr : Trace) : Option String × Pgcluster × Trace :=
  match acquirePrimaryPVC env cl ns tr with
  | (none, tr) => (none, cl, tr)
  | (some pvcName, tr) =>
    match acquireArchivePVC env cl ns tr with
    | (false, tr) => (none, cl, tr)
    | (true, tr) =>
      match acquireBackrestPVC env consts pgo cl ns tr with
      | (false, tr) => (none, cl, tr)
      | (true, tr) =>
        match applySecretFrom env consts (applyPassword cl) ns tr with
        | (false, cl, tr) => (none, cl, tr)
        | (true, cl, tr) =>
          match createDatabaseSecrets env consts cl ns tr with
          | ((_, _, _, err), cl, tr) =>
            if err.isSome then (none, cl, tr) else (some pvcName, cl, tr)

/-- What an event of lines 110–186 of `AddClusterBase` can be: a call of the steps
before the registry lookup, none that touches the workload, and a claim is only
created after a lookup of the same claim in the same namespace found nothing. -/
def PrepEvent (env : Env) (e : Event) : Prop :=
  e.call.precedesLookup = true ∧ e.call.workloadAffecting = false ∧
    ∀ st c owner ns, e.call = .CreatePVC st c owner ns → ∃ h, (env.GetPVC h c ns).1 = false

/-- What an event of lines 204–275 of `AddClusterBase` can be: no claim is created,
and the claim name handed to `Strategy.AddCluster` and patched to
`/spec/PrimaryStorage/name` is `pvcName`. -/
def ProvEvent (pvcName : String) (e : Event) : Prop :=
  createsAnyClaim e = false ∧
    (∀ k cl ns p, e.call = .StrategyAddCluster k cl ns p → p = pvcName) ∧
    (∀ v r nm ns, e.call = .Patch "/spec/PrimaryStorage/name" v r nm ns → v = pvcName)

/-- The fields of a cluster that lines 110–186 of `AddClusterBase` never assign. -/
def SameRequest (cl cl1 : Pgcluster) : Prop :=
  cl1.Spec.Name = cl.Spec.Name ∧ cl1.Spec.Replicas = cl.Spec.Replicas ∧
    cl1.Spec.UserLabels = cl.Spec.UserLabels ∧
    cl1.Spec.ContainerResources = cl.Spec.ContainerResources ∧
    cl1.Spec.PrimaryStorage = cl.Spec.PrimaryStorage ∧ cl1.Spec.Status = cl.Spec.Status ∧
    cl1.Spec.Strategy = cl.Spec.Strategy

/-- An event of the steps before the registry lookup that does not touch the
workload. -/
def BeforeLookup (e : Event) : Prop :=
  e.call.precedesLookup = true ∧ e.call.workloadAffecting = false

/-- A platform whose clusters all carry the strategy id "zz". -/
def envUnknownStrategy : Env :=
  { okEnv with
    Getpgcluster := fun _ name _ => ({ Spec := { Name := name, Strategy := "zz" } }, none) }

/-- A cluster "db" with the strategy id "zz". -/
def unknownStrategyCluster : Pgcluster :=
  { Spec := { Name := "db", Strategy := "zz", Replicas := "2" } }

/-- A replica "db-abcd" of the cluster "db". -/
def sampleReplica : Pgreplica :=
  { Spec := { Name := "db-abcd", ClusterName := "db" } }

/-- What a request of the replica loop (lines 237–274) can be: the creation of the
replica resource built from the cluster and from some answer of
`util.RandStringBytesRmndr(4)`. -/
def PostEvent (env : Env) (consts : Consts) (pgo : PgoConfig) (cl : Pgcluster) (ns : String)
    (e : Event) : Prop :=
  ∃ h : Trace, e.call = .PostPgreplica consts.PgreplicaResourcePlural ns
    (newReplica consts pgo cl (env.RandStringBytesRmndr h 4))

/-- A platform that finds exactly the claims whose creation the history records as
successful, and on which every call succeeds. -/
def envRetaining : Env :=
  { okEnv with GetPVC := fun h c ns => (h.any (createdClaim c ns), none) }

/-- A cluster "db" that asks for the archive and the backrest repository claims. -/
def archivedCluster : Pgcluster :=
  { Spec := { Name := "db", UserLabels := [("archive", "true"), ("pgo-backrest", "true")] } }

/-- The claim name that an event hands to `Strategy.AddCluster` or patches to
`/spec/PrimaryStorage/name`, if it is such an event, is `pvcName`. -/
def UsesClaim (pvcName : String) (e : Event) : Prop :=
  (∀ k cl ns p, e.call = .StrategyAddCluster k cl ns p → p = pvcName) ∧
    (∀ v r nm ns, e.call = .Patch "/spec/PrimaryStorage/name" v r nm ns → v = pvcName)

/-- Every call whose error would make `AddClusterBase` return before the replica step
succeeds: the creation of a claim, the fetch of a password, the creation of a secret
and the patches. -/
def Succeeds (env : Env) : Prop :=
  (∀ h st c owner ns, (env.CreatePVC h st c owner ns).2 = none) ∧
    (∀ h ns s, (env.GetPasswordFromSecret h ns s).2 = none) ∧
    (∀ h cn sn u p ns, env.CreateSecret h cn sn u p ns = none) ∧
    (∀ h path v r nm ns, env.Patch h path v r nm ns = none)

/-- A cluster "db" that asks for two replicas. -/
def twoReplicaCluster : Pgcluster :=
  { Spec := { Name := "db", Replicas := "2" } }

/-- A cluster "db" whose replica count is the decimal string of `2 ^ 63`. -/
def hugeReplicaCluster : Pgcluster :=
  { Spec := { Name := "db", Replicas := "9223372036854775808" } }

/-- A cluster "db" whose replica count is not a number. -/
def badReplicaCluster : Pgcluster :=
  { Spec := { Name := "db", Replicas := "three" } }

/-- A platform on which every call succeeds and the replica suffixes generated are
"r0", "r1", ... numbered by the length of the history. -/
def envDistinctSuffixes : Env :=
  { okEnv with RandStringBytesRmndr := fun h _ => "r" ++ Nat.repr h.length }

/-- The history at which `AddClusterBase`, started at `tr`, looks up the archive claim
`<name>-xlog` (line 127): the history its primary claim step (lines 110–123) leaves. -/
def archiveLookup (env : Env) (cl : Pgcluster) (ns : String) (tr : Trace) : Trace :=
  (acquirePrimaryPVC env cl ns tr).2

/-- The history at which `AddClusterBase`, started at `tr`, looks up the backrest
repository claim `<name>-backrestrepo` (line 140): the history its archive claim step
(lines 125–137) leaves. -/
def backrestLookup (env : Env) (cl : Pgcluster) (ns : String) (tr : Trace) : Trace :=
  (acquireArchivePVC env cl ns (archiveLookup env cl ns tr)).2

/-- If the event is a create request for a claim, the claim is `name` in the namespace
`ns` and the lookup of `name` at the history `h` found nothing. -/
def GuardedBy (env : Env) (name ns : String) (h : Trace) (e : Event) : Prop :=
  ∀ st c owner ns1, e.call = .CreatePVC st c owner ns1 →
    ns1 = ns ∧ c = name ∧ (env.GetPVC h name ns).1 = false

/-- What a create request of `AddClusterBase` on the cluster `name` can be: one for the
primary, the archive or the backrest repository claim, issued after the lookup of that
claim at the history `h1`, `h2` or `h3` found nothing. -/
def GuardedAt (env : Env) (name ns : String) (h1 h2 h3 : Trace) (e : Event) : Prop :=
  GuardedBy env name ns h1 e ∨ GuardedBy env (name ++ "-xlog") ns h2 e ∨
    GuardedBy env (name ++ "-backrestrepo") ns h3 e

/-- The first call of `AddClusterBase` on a cluster that is not complete yet: the lookup
of the claim named after the cluster, at the history `tr`. -/
def primaryLookupEvent (env : Env) (cl : Pgcluster) (ns : String) (tr : Trace) : Event :=
  ⟨.GetPVC cl.Spec.Name ns, (env.GetPVC tr cl.Spec.Name ns).2⟩

/-- A platform that retains the claims it creates and on which `Strategy1.AddCluster`
fails, everything else succeeding. -/
def envRetainingAddClusterFails : Env :=
  { envRetaining with
    Strategy1 := { okStrategy with AddCluster := fun _ _ _ _ => some "deploy failed" } }

/-- The events that a run started at the history `tr` and ending at `final` added. -/
def added (tr final : Trace) : Trace :=
  final.drop tr.length

/-- The history after a first run of `AddClusterBase` on the cluster "db" with the
archive and backrest flags, on the platform `envRetaining` with no claim yet. -/
def firstRun : Trace :=
  (AddClusterBase envRetaining sampleConsts samplePgo archivedCluster "ns" []).2

/-- The history after a second run on the same cluster, started at `firstRun`. -/
def secondRun : Trace :=
  (AddClusterBase envRetaining sampleConsts samplePgo archivedCluster "ns" firstRun).2

/-! ## Theorems -/

/-! ### Terminal short-circuit and the error results of `AddUpgradeBase` -/

/-- C9: on a cluster whose status is already `UpgradeCompletedStatus`, `AddClusterBase`
makes no call at all (the history comes back as it was) and returns the cluster
unchanged; `ScaleBase` does the same on a replica in that status. -/
theorem AddClusterBase_ScaleBase_terminal_short_circuit (env : Env) (consts : Consts)
    (pgo : PgoConfig) (ns : String) (tr : Trace) :
    (∀ cl : Pgcluster, cl.Spec.Status = consts.UpgradeCompletedStatus →
      AddClusterBase env consts pgo cl ns tr = (cl, tr)) ∧
    (∀ replica : Pgreplica, replica.Spec.Status = consts.UpgradeCompletedStatus →
      ScaleBase env consts pgo replica ns tr = (replica, tr)) := by
  constructor
  · intro cl h
    simp [AddClusterBase, h]
  · intro replica h
    simp [ScaleBase, h]

/-- C3 (what the code does): when the upgrade type is neither "minor" nor "major", or
the cluster's strategy id is non-empty and not in the registry, `AddUpgradeBase` makes
no call, but the error it returns is `nil`: `err` is never assigned on these paths. -/
theorem AddUpgradeBase_config_error_returns_nil (env : Env) (consts : Consts)
    (upgrade : Pgupgrade) (ns : String) (cl : Pgcluster) (tr : Trace)
    (h : (upgrade.Spec.UpgradeType ≠ "minor" ∧ upgrade.Spec.UpgradeType ≠ "major") ∨
      (cl.Spec.Strategy ≠ "" ∧ (strategyMap env).lookup cl.Spec.Strategy = none)) :
    (AddUpgradeBase env consts upgrade ns cl tr).1 = none ∧
      (AddUpgradeBase env consts upgrade ns cl tr).2.2 = tr := by
  unfold AddUpgradeBase
  rcases h with ⟨h1, h2⟩ | ⟨h1, h2⟩
  · simp only [h1, h2, if_false]
    split <;> simp
  · have hd : defaultStrategy cl = cl := by simp [defaultStrategy, h1]
    simp [hd, h2]

/-- The configuration-error paths of `AddUpgradeBase`, at the upgrade type "bogus". -/
theorem AddUpgradeBase_config_error_returns_nil_witness :
    ((bogusUpgrade.Spec.UpgradeType ≠ "minor" ∧ bogusUpgrade.Spec.UpgradeType ≠ "major") ∨
      (sampleCluster.Spec.Strategy ≠ "" ∧
        (strategyMap okEnv).lookup sampleCluster.Spec.Strategy = none)) ∧
    (AddUpgradeBase okEnv sampleConsts bogusUpgrade "ns" sampleCluster []).1 = none ∧
    (AddUpgradeBase okEnv sampleConsts bogusUpgrade "ns" sampleCluster []).2.2 = [] :=
  ⟨Or.inl (by decide),
    AddUpgradeBase_config_error_returns_nil okEnv sampleConsts bogusUpgrade "ns" sampleCluster []
      (Or.inl (by decide))⟩

/-- The terminal short-circuit at a completed cluster and a completed replica. -/
theorem AddClusterBase_ScaleBase_terminal_short_circuit_witness :
    AddClusterBase okEnv sampleConsts samplePgo
        { Spec := { Name := "db", Status := "completed" } } "ns" [] =
      ({ Spec := { Name := "db", Status := "completed" } }, []) ∧
    ScaleBase okEnv sampleConsts samplePgo
        { Spec := { Name := "db-abcd", ClusterName := "db", Status := "completed" } } "ns" [] =
      ({ Spec := { Name := "db-abcd", ClusterName := "db", Status := "completed" } }, []) :=
  ⟨(AddClusterBase_ScaleBase_terminal_short_circuit okEnv sampleConsts samplePgo "ns" []).1
      { Spec := { Name := "db", Status := "completed" } } rfl,
    (AddClusterBase_ScaleBase_terminal_short_circuit okEnv sampleConsts samplePgo "ns" []).2
      { Spec := { Name := "db-abcd", ClusterName := "db", Status := "completed" } } rfl⟩

/-! ### Upgrade dispatch -/

/-- C7 (amended): with a resolvable strategy, a minor upgrade whose `MinorUpgrade`
succeeds patches the upgrade status, and patches the image tag only when that first
patch succeeded too (otherwise the routine stops there and returns the patch error);
a major upgrade whose `MajorUpgrade` succeeds patches the image tag and nothing else;
when the strategy operation fails no patch is issued and its error is returned. -/
theorem AddUpgradeBase_dispatch (env : Env) (consts : Consts) (upgrade : Pgupgrade)
    (ns : String) (cl : Pgcluster) (tr : Trace)
    (hs : cl.Spec.Strategy = "" ∨ cl.Spec.Strategy = "1") :
    (upgrade.Spec.UpgradeType = "minor" →
      env.Strategy1.MinorUpgrade tr (defaultStrategy cl) upgrade ns = none →
      env.Patch (tr ++ [⟨.StrategyMinorUpgrade "1" (defaultStrategy cl) upgrade ns, none⟩])
        "/spec/upgradestatus" consts.UpgradeCompletedStatus consts.PgupgradeResourcePlural
        upgrade.Spec.Name ns = none →
      ∃ err, AddUpgradeBase env consts upgrade ns cl tr =
        (err, defaultStrategy cl,
          tr ++ [⟨.StrategyMinorUpgrade "1" (defaultStrategy cl) upgrade ns, none⟩,
            ⟨upgradeStatusPatch consts upgrade ns, none⟩,
            ⟨imageTagPatch consts upgrade ns, err⟩])) ∧
    (upgrade.Spec.UpgradeType = "minor" →
      env.Strategy1.MinorUpgrade tr (defaultStrategy cl) upgrade ns = none →
      ∀ e, env.Patch (tr ++ [⟨.StrategyMinorUpgrade "1" (defaultStrategy cl) upgrade ns, none⟩])
        "/spec/upgradestatus" consts.UpgradeCompletedStatus consts.PgupgradeResourcePlural
        upgrade.Spec.Name ns = some e →
      AddUpgradeBase env consts upgrade ns cl tr =
        (some e, defaultStrategy cl,
          tr ++ [⟨.StrategyMinorUpgrade "1" (defaultStrategy cl) upgrade ns, none⟩,
            ⟨upgradeStatusPatch consts upgrade ns, some e⟩])) ∧
    (upgrade.Spec.UpgradeType = "major" →
      env.Strategy1.MajorUpgrade tr (defaultStrategy cl) upgrade ns = none →
      ∃ err, AddUpgradeBase env consts upgrade ns cl tr =
        (err, defaultStrategy cl,
          tr ++ [⟨.StrategyMajorUpgrade "1" (defaultStrategy cl) upgrade ns, none⟩,
            ⟨imageTagPatch consts upgrade ns, err⟩])) ∧
    (upgrade.Spec.UpgradeType = "minor" →
      ∀ e, env.Strategy1.MinorUpgrade tr (defaultStrategy cl) upgrade ns = some e →
      AddUpgradeBase env consts upgrade ns cl tr =
        (some e, defaultStrategy cl,
          tr ++ [⟨.StrategyMinorUpgrade "1" (defaultStrategy cl) upgrade ns, some e⟩])) ∧
    (upgrade.Spec.UpgradeType = "major" →
      ∀ e, env.Strategy1.MajorUpgrade tr (defaultStrategy cl) upgrade ns = some e →
      AddUpgradeBase env consts upgrade ns cl tr =
        (some e, defaultStrategy cl,
          tr ++ [⟨.StrategyMajorUpgrade "1" (defaultStrategy cl) upgrade ns, some e⟩])) := by
  have hk : (defaultStrategy cl).Spec.Strategy = "1" := by
    rcases hs with h | h <;> simp [defaultStrategy, h]
  have hl : (strategyMap env).lookup "1" = some env.Strategy1 := by
    simp [strategyMap]
  refine ⟨?_, ?_, ?_, ?_, ?_⟩
  · intro ht hm hp
    simp [AddUpgradeBase, hl, ht, hm, hp, hk, record, upgradeStatusPatch, imageTagPatch]
  · intro ht hm e hp
    simp [AddUpgradeBase, hl, ht, hm, hp, hk, record, upgradeStatusPatch]
  · intro ht hm
    simp [AddUpgradeBase, hl, ht, hm, hk, record, imageTagPatch]
  · intro ht e hm
    simp [AddUpgradeBase, hl, ht, hm, hk, record]
  · intro ht e hm
    simp [AddUpgradeBase, hl, ht, hm, hk, record]

/-- The five cases of the upgrade dispatch on the cluster "db". -/
theorem AddUpgradeBase_dispatch_witness :
    (∃ err, AddUpgradeBase okEnv sampleConsts minorUpgrade "ns" sampleCluster [] =
        (err, defaultStrategy sampleCluster,
          [] ++ [⟨.StrategyMinorUpgrade "1" (defaultStrategy sampleCluster) minorUpgrade "ns", none⟩,
            ⟨upgradeStatusPatch sampleConsts minorUpgrade "ns", none⟩,
            ⟨imageTagPatch sampleConsts minorUpgrade "ns", err⟩])) ∧
    AddUpgradeBase envStatusPatchFails sampleConsts minorUpgrade "ns" sampleCluster [] =
        (some "patch failed", defaultStrategy sampleCluster,
          [] ++ [⟨.StrategyMinorUpgrade "1" (defaultStrategy sampleCluster) minorUpgrade "ns", none⟩,
            ⟨upgradeStatusPatch sampleConsts minorUpgrade "ns", some "patch failed"⟩]) ∧
    (∃ err, AddUpgradeBase okEnv sampleConsts majorUpgrade "ns" sampleCluster [] =
        (err, defaultStrategy sampleCluster,
          [] ++ [⟨.StrategyMajorUpgrade "1" (defaultStrategy sampleCluster) majorUpgrade "ns", none⟩,
            ⟨imageTagPatch sampleConsts majorUpgrade "ns", err⟩])) ∧
    AddUpgradeBase envUpgradeFails sampleConsts minorUpgrade "ns" sampleCluster [] =
        (some "minor failed", defaultStrategy sampleCluster,
          [] ++ [⟨.StrategyMinorUpgrade "1" (defaultStrategy sampleCluster) minorUpgrade "ns", some "minor failed"⟩]) ∧
    AddUpgradeBase envUpgradeFails sampleConsts majorUpgrade "ns" sampleCluster [] =
        (some "major failed", defaultStrategy sampleCluster,
          [] ++ [⟨.StrategyMajorUpgrade "1" (defaultStrategy sampleCluster) majorUpgrade "ns", some "major failed"⟩]) :=
  ⟨(AddUpgradeBase_dispatch okEnv sampleConsts minorUpgrade "ns" sampleCluster [] (Or.inl rfl)).1
      rfl rfl rfl,
   (AddUpgradeBase_dispatch envStatusPatchFails sampleConsts minorUpgrade "ns" sampleCluster []
      (Or.inl rfl)).2.1 rfl rfl _ rfl,
   (AddUpgradeBase_dispatch okEnv sampleConsts majorUpgrade "ns" sampleCluster []
      (Or.inl rfl)).2.2.1 rfl rfl,
   (AddUpgradeBase_dispatch envUpgradeFails sampleConsts minorUpgrade "ns" sampleCluster []
      (Or.inl rfl)).2.2.2.1 rfl _ rfl,
   (AddUpgradeBase_dispatch envUpgradeFails sampleConsts majorUpgrade "ns" sampleCluster []
      (Or.inl rfl)).2.2.2.2 rfl _ rfl⟩

/-- C7 (counterexample): a minor upgrade whose `MinorUpgrade` succeeds but whose
status patch fails never patches the image tag. -/
theorem AddUpgradeBase_minor_skips_image_tag :
    sampleCluster.Spec.Strategy = "" ∧ minorUpgrade.Spec.UpgradeType = "minor" ∧
    (AddUpgradeBase envStatusPatchFails sampleConsts minorUpgrade "ns" sampleCluster []).2.2 =
      [⟨.StrategyMinorUpgrade "1" (defaultStrategy sampleCluster) minorUpgrade "ns", none⟩,
        ⟨upgradeStatusPatch sampleConsts minorUpgrade "ns", some "patch failed"⟩] ∧
    imageTagPatch sampleConsts minorUpgrade "ns" ∉
      calls (AddUpgradeBase envStatusPatchFails sampleConsts minorUpgrade "ns" sampleCluster []).2.2 := by
  decide

/-! ### Secrets, passwords and the workload step, on concrete platforms -/

/-- The error that `createDatabaseSecrets` returns is the error of its last call, the
patch of `/spec/usersecretname`, whatever the five calls before it returned. -/
theorem createDatabaseSecrets_error_is_last (env : Env) (consts : Consts) (cl : Pgcluster)
    (ns : String) (tr : Trace) :
    ∃ (pre : Trace) (c : Call),
      (createDatabaseSecrets env consts cl ns tr).2.2 =
        pre ++ [⟨c, (createDatabaseSecrets env consts cl ns tr).1.2.2.2⟩] ∧
      c.kind = "Patch /spec/usersecretname" :=
  ⟨_, _, rfl, rfl⟩

/-- C1 (what the code does): when the creation of the root secret fails and the five
later calls succeed, `createDatabaseSecrets` returns a `nil` error, and `AddClusterBase`
goes on to resolve the strategy and to call `Strategy.AddCluster`. -/
theorem createDatabaseSecrets_loses_root_error :
    outline (createDatabaseSecrets envRootSecretFails sampleConsts sampleCluster "ns" []).2.2 =
      [("CreateSecret", some "create failed"), ("Patch /spec/rootsecretname", none),
        ("CreateSecret", none), ("Patch /spec/primarysecretname", none),
        ("CreateSecret", none), ("Patch /spec/usersecretname", none)] ∧
    (createDatabaseSecrets envRootSecretFails sampleConsts sampleCluster "ns" []).1.2.2.2 = none ∧
    outline (AddClusterBase envRootSecretFails sampleConsts samplePgo sampleCluster "ns" []).2 =
      [("GetPVC", none), ("CreatePVC", none),
        ("CreateSecret", some "create failed"), ("Patch /spec/rootsecretname", none),
        ("CreateSecret", none), ("Patch /spec/primarysecretname", none),
        ("CreateSecret", none), ("Patch /spec/usersecretname", none),
        ("Strategy.AddCluster", none), ("Patch /spec/status", none),
        ("Patch /spec/PrimaryStorage/name", none)] := by
  decide

/-- C2 (what the code does): a cluster with the password "X" and a non-empty
`SecretFrom` gets its three secrets created with the passwords fetched from the other
cluster's secrets, not with "X". -/
theorem AddClusterBase_secretFrom_overrides_password :
    passwordCluster.Spec.Password = "X" ∧
    secretPasswords (AddClusterBase okEnv sampleConsts samplePgo passwordCluster "ns" []).2 =
      ["fetched", "fetched", "fetched"] := by
  decide

/-- C4 (what the code does): when `Strategy.AddCluster` returns an error, the routine
still patches the status to `UpgradeCompletedStatus` and the primary claim name,
provisions both poolers and creates the replica resource. -/
theorem AddClusterBase_continues_after_AddCluster_error :
    outline (AddClusterBase envAddClusterFails sampleConsts samplePgo pooledCluster "ns" []).2 =
      [("GetPVC", none), ("CreatePVC", none),
        ("CreateSecret", none), ("Patch /spec/rootsecretname", none),
        ("CreateSecret", none), ("Patch /spec/primarysecretname", none),
        ("CreateSecret", none), ("Patch /spec/usersecretname", none),
        ("Strategy.AddCluster", some "deploy failed"), ("Patch /spec/status", none),
        ("Patch /spec/PrimaryStorage/name", none), ("AddPgpool", none), ("AddPgbouncer", none),
        ("PostPgreplica", none)] ∧
    Call.Patch "/spec/status" sampleConsts.UpgradeCompletedStatus
        sampleConsts.PgclusterResourcePlural "db" "ns" ∈
      calls (AddClusterBase envAddClusterFails sampleConsts samplePgo pooledCluster "ns" []).2 := by
  decide

/-! ### Histories that continue one another -/

theorem Extends.refl (P : Event → Prop) (tr : Trace) : Extends P tr tr :=
  ⟨[], by simp, by simp⟩

theorem Extends.record {P : Event → Prop} {tr tr1 : Trace} (h : Extends P tr tr1) (c : Call)
    (err : Option String) (hp : P ⟨c, err⟩) : Extends P tr (record tr1 c err) := by
  obtain ⟨new, rfl, hn⟩ := h
  refine ⟨new ++ [⟨c, err⟩], by simp [Cluster.record], ?_⟩
  intro e he
  rcases List.mem_append.1 he with h1 | h1
  · exact hn e h1
  · simp at h1
    subst h1
    exact hp

theorem Extends.trans {P : Event → Prop} {tr tr1 tr2 : Trace} (h1 : Extends P tr tr1)
    (h2 : Extends P tr1 tr2) : Extends P tr tr2 := by
  obtain ⟨n1, rfl, hn1⟩ := h1
  obtain ⟨n2, rfl, hn2⟩ := h2
  refine ⟨n1 ++ n2, by simp, ?_⟩
  intro e he
  rcases List.mem_append.1 he with h | h
  · exact hn1 e h
  · exact hn2 e h

theorem Extends.mono {P Q : Event → Prop} {tr tr1 : Trace} (h : Extends P tr tr1)
    (hpq : ∀ e, P e → Q e) : Extends Q tr tr1 := by
  obtain ⟨n, rfl, hn⟩ := h
  exact ⟨n, rfl, fun e he => hpq e (hn e he)⟩

theorem ScaleBase_unresolved (env : Env) (consts : Consts) (pgo : PgoConfig)
    (replica : Pgreplica) (ns : String) (tr : Trace)
    (h : (strategyMap env).lookup
      (env.Getpgcluster tr replica.Spec.ClusterName ns).1.Spec.Strategy = none) :
    Extends BeforeLookup tr (ScaleBase env consts pgo replica ns tr).2 := by
  unfold ScaleBase
  simp only [h]
  split_ifs <;>
    repeat (first
      | exact Extends.refl _ _
      | refine Extends.record ?_ _ _ (by exact ⟨rfl, rfl⟩))

/-! ### The steps of `AddClusterBase` before the registry lookup -/

theorem AddClusterBase_eq (env : Env) (consts : Consts) (pgo : PgoConfig) (cl : Pgcluster)
    (ns : String) (tr : Trace) :
    AddClusterBase env consts pgo cl ns tr =
      if cl.Spec.Status = consts.UpgradeCompletedStatus then (cl, tr) else
      match prepareCluster env consts pgo cl ns tr with
      | (none, cl1, tr1) => (cl1, tr1)
      | (some pvcName, cl1, tr1) =>
        match (strategyMap env).lookup (defaultStrategy cl1).Spec.Strategy with
        | none => (defaultStrategy cl1, tr1)
        | some strategy =>
          (defaultStrategy cl1,
            provisionCluster env consts pgo (defaultStrategy cl1).Spec.Strategy strategy
              (defaultStrategy cl1) ns pvcName tr1) := by
  unfold AddClusterBase prepareCluster
  split_ifs
  · rfl
  · rcases acquirePrimaryPVC env cl ns tr with ⟨_ | p, t1⟩
    · rfl
    · simp only
      rcases acquireArchivePVC env cl ns t1 with ⟨_ | _, t2⟩
      · rfl
      · simp only
        rcases acquireBackrestPVC env consts pgo cl ns t2 with ⟨_ | _, t3⟩
        · rfl
        · simp only
          rcases applySecretFrom env consts (applyPassword cl) ns t3 with ⟨_ | _, c4, t4⟩
          · rfl
          · simp only
            rcases createDatabaseSecrets env consts c4 ns t4 with ⟨⟨p1, p2, p3, err⟩, c5, t5⟩
            simp only
            split_ifs
            · rfl
            · rfl

theorem prepEvent_of_flags {env : Env} {e : Event} (h1 : e.call.precedesLookup = true)
    (h2 : e.call.workloadAffecting = false) (h3 : createsAnyClaim e = false) :
    PrepEvent env e := by
  refine ⟨h1, h2, ?_⟩
  intro st c owner ns hc
  simp [createsAnyClaim, hc] at h3

theorem prepEvent_create {env : Env} (st : PgStorageSpec) (c owner ns : String)
    (err : Option String) (h : Trace) (hf : (env.GetPVC h c ns).1 = false) :
    PrepEvent env ⟨.CreatePVC st c owner ns, err⟩ := by
  refine ⟨rfl, rfl, ?_⟩
  intro st1 c1 owner1 ns1 hc
  simp only [Call.CreatePVC.injEq] at hc
  obtain ⟨-, rfl, -, rfl⟩ := hc
  exact ⟨h, hf⟩

theorem acquirePrimaryPVC_extends (env : Env) (cl : Pgcluster) (ns : String) (tr : Trace) :
    Extends (PrepEvent env) tr (acquirePrimaryPVC env cl ns tr).2 := by
  unfold acquirePrimaryPVC
  by_cases hf : (env.GetPVC tr cl.Spec.Name ns).1 = true
  · simp only [hf, if_true]
    refine Extends.record (Extends.refl _ _) _ _ ?_
    exact prepEvent_of_flags rfl rfl rfl
  · have hf1 : (env.GetPVC tr cl.Spec.Name ns).1 = false := by simpa using hf
    simp only [hf1, Bool.false_eq_true, if_false]
    split_ifs <;>
    · refine Extends.record (Extends.record (Extends.refl _ _) _ _ ?_) _ _ ?_
      · exact prepEvent_of_flags rfl rfl rfl
      · exact prepEvent_create _ _ _ _ _ tr hf1

theorem acquireArchivePVC_extends (env : Env) (cl : Pgcluster) (ns : String) (tr : Trace) :
    Extends (PrepEvent env) tr (acquireArchivePVC env cl ns tr).2 := by
  unfold acquireArchivePVC
  by_cases hl : mapGet cl.Spec.UserLabels "archive" = "true"
  · simp only [hl, if_true]
    by_cases hf : (env.GetPVC tr (cl.Spec.Name ++ "-xlog") ns).1 = true
    · simp only [hf, if_true]
      refine Extends.record (Extends.refl _ _) _ _ ?_
      exact prepEvent_of_flags rfl rfl rfl
    · have hf1 : (env.GetPVC tr (cl.Spec.Name ++ "-xlog") ns).1 = false := by simpa using hf
      simp only [hf1, Bool.false_eq_true, if_false]
      split_ifs <;>
      · refine Extends.record (Extends.record (Extends.refl _ _) _ _ ?_) _ _ ?_
        · exact prepEvent_of_flags rfl rfl rfl
        · exact prepEvent_create _ _ _ _ _ tr hf1
  · simp only [hl, if_false]
    exact Extends.refl _ _

theorem acquireBackrestPVC_extends (env : Env) (consts : Consts) (pgo : PgoConfig)
    (cl : Pgcluster) (ns : String) (tr : Trace) :
    Extends (PrepEvent env) tr (acquireBackrestPVC env consts pgo cl ns tr).2 := by
  unfold acquireBackrestPVC
  by_cases hl : mapGet cl.Spec.UserLabels consts.LABEL_BACKREST = "true"
  · simp only [hl, if_true]
    by_cases hf : (env.GetPVC tr (cl.Spec.Name ++ "-backrestrepo") ns).1 = true
    · simp only [hf, if_true]
      refine Extends.record (Extends.refl _ _) _ _ ?_
      exact prepEvent_of_flags rfl rfl rfl
    · have hf1 : (env.GetPVC tr (cl.Spec.Name ++ "-backrestrepo") ns).1 = false := by
        simpa using hf
      simp only [hf1, Bool.false_eq_true, if_false]
      split_ifs <;>
      · refine Extends.record (Extends.record (Extends.refl _ _) _ _ ?_) _ _ ?_
        · exact prepEvent_of_flags rfl rfl rfl
        · exact prepEvent_create _ _ _ _ _ tr hf1
  · simp only [hl, if_false]
    exact Extends.refl _ _

theorem applySecretFrom_extends (env : Env) (consts : Consts) (cl : Pgcluster) (ns : String)
    (tr : Trace) : Extends (PrepEvent env) tr (applySecretFrom env consts cl ns tr).2.2 := by
  unfold applySecretFrom
  dsimp only
  split_ifs
  all_goals first
    | exact Extends.refl _ _
    | (refine Extends.record (Extends.record (Extends.record (Extends.refl _ _) _ _ ?_) _ _ ?_)
        _ _ ?_) <;> exact prepEvent_of_flags rfl rfl rfl

theorem createDatabaseSecrets_extends (env : Env) (consts : Consts) (cl : Pgcluster)
    (ns : String) (tr : Trace) :
    Extends (PrepEvent env) tr (createDatabaseSecrets env consts cl ns tr).2.2 := by
  unfold createDatabaseSecrets
  refine Extends.record (Extends.record (Extends.record (Extends.record (Extends.record
    (Extends.record (Extends.refl _ _) _ _ ?_) _ _ ?_) _ _ ?_) _ _ ?_) _ _ ?_) _ _ ?_ <;>
    exact prepEvent_of_flags rfl rfl rfl

theorem SameRequest.same (cl : Pgcluster) : SameRequest cl cl :=
  ⟨rfl, rfl, rfl, rfl, rfl, rfl, rfl⟩

theorem SameRequest.chain {a b c : Pgcluster} (h1 : SameRequest a b) (h2 : SameRequest b c) :
    SameRequest a c := by
  obtain ⟨a1, a2, a3, a4, a5, a6, a7⟩ := h1
  obtain ⟨b1, b2, b3, b4, b5, b6, b7⟩ := h2
  exact ⟨b1.trans a1, b2.trans a2, b3.trans a3, b4.trans a4, b5.trans a5, b6.trans a6,
    b7.trans a7⟩

theorem applyPassword_same (cl : Pgcluster) : SameRequest cl (applyPassword cl) := by
  unfold applyPassword
  split_ifs
  · exact ⟨rfl, rfl, rfl, rfl, rfl, rfl, rfl⟩
  · exact SameRequest.same cl

theorem applySecretFrom_same (env : Env) (consts : Consts) (cl : Pgcluster) (ns : String)
    (tr : Trace) : SameRequest cl (applySecretFrom env consts cl ns tr).2.1 := by
  unfold applySecretFrom
  dsimp only
  split_ifs <;> exact ⟨rfl, rfl, rfl, rfl, rfl, rfl, rfl⟩

theorem createDatabaseSecrets_same (env : Env) (consts : Consts) (cl : Pgcluster)
    (ns : String) (tr : Trace) :
    SameRequest cl (createDatabaseSecrets env consts cl ns tr).2.1 :=
  ⟨rfl, rfl, rfl, rfl, rfl, rfl, rfl⟩

theorem prepareCluster_extends (env : Env) (consts : Consts) (pgo : PgoConfig)
    (cl : Pgcluster) (ns : String) (tr : Trace) :
    Extends (PrepEvent env) tr (prepareCluster env consts pgo cl ns tr).2.2 ∧
      SameRequest cl (prepareCluster env consts pgo cl ns tr).2.1 := by
  unfold prepareCluster
  have h1 := acquirePrimaryPVC_extends env cl ns tr
  generalize acquirePrimaryPVC env cl ns tr = q1 at h1
  obtain ⟨_ | p, t1⟩ := q1
  · exact ⟨h1, SameRequest.same cl⟩
  dsimp only at h1 ⊢
  have h2 := h1.trans (acquireArchivePVC_extends env cl ns t1)
  generalize acquireArchivePVC env cl ns t1 = q2 at h2
  obtain ⟨_ | _, t2⟩ := q2
  · exact ⟨h2, SameRequest.same cl⟩
  dsimp only at h2 ⊢
  have h3 := h2.trans (acquireBackrestPVC_extends env consts pgo cl ns t2)
  generalize acquireBackrestPVC env consts pgo cl ns t2 = q3 at h3
  obtain ⟨_ | _, t3⟩ := q3
  · exact ⟨h3, SameRequest.same cl⟩
  dsimp only at h3 ⊢
  have h4 := h3.trans (applySecretFrom_extends env consts (applyPassword cl) ns t3)
  have s4 := (applyPassword_same cl).chain
    (applySecretFrom_same env consts (applyPassword cl) ns t3)
  generalize applySecretFrom env consts (applyPassword cl) ns t3 = q4 at h4 s4
  obtain ⟨_ | _, c4, t4⟩ := q4
  · exact ⟨h4, s4⟩
  dsimp only at h4 s4 ⊢
  have h5 := h4.trans (createDatabaseSecrets_extends env consts c4 ns t4)
  have s5 := s4.chain (createDatabaseSecrets_same env consts c4 ns t4)
  generalize createDatabaseSecrets env consts c4 ns t4 = q5 at h5 s5
  obtain ⟨⟨p1, p2, p3, err⟩, c5, t5⟩ := q5
  dsimp only at h5 s5 ⊢
  split_ifs <;> exact ⟨h5, s5⟩

/-! ### An unresolved strategy id -/

theorem ScaleDownBase_unresolved (env : Env) (replica : Pgreplica) (ns : String) (tr : Trace)
    (h : (strategyMap env).lookup
      (env.Getpgcluster tr replica.Spec.ClusterName ns).1.Spec.Strategy = none) :
    Extends BeforeLookup tr (ScaleDownBase env replica ns tr).2 := by
  unfold ScaleDownBase
  simp only [h]
  split_ifs <;>
  · refine Extends.record (Extends.refl _ _) _ _ ?_
    exact ⟨rfl, rfl⟩

theorem AddClusterBase_unresolved (env : Env) (consts : Consts) (pgo : PgoConfig)
    (cl : Pgcluster) (ns : String) (tr : Trace) (hne : cl.Spec.Strategy ≠ "")
    (h : (strategyMap env).lookup cl.Spec.Strategy = none) :
    Extends BeforeLookup tr (AddClusterBase env consts pgo cl ns tr).2 := by
  rw [AddClusterBase_eq]
  split_ifs
  · exact Extends.refl _ _
  have hp := prepareCluster_extends env consts pgo cl ns tr
  generalize prepareCluster env consts pgo cl ns tr = q at hp
  obtain ⟨o, c1, t1⟩ := q
  obtain ⟨he, hsame⟩ := hp
  have he1 : Extends BeforeLookup tr t1 := he.mono (fun e h => ⟨h.1, h.2.1⟩)
  cases o with
  | none => exact he1
  | some p =>
    have hst : c1.Spec.Strategy = cl.Spec.Strategy := hsame.2.2.2.2.2.2
    have hd : (defaultStrategy c1).Spec.Strategy = cl.Spec.Strategy := by
      simp [defaultStrategy, hst, hne]
    dsimp only
    rw [hd, h]
    exact he1

theorem DeleteClusterBase_unresolved (env : Env) (cl : Pgcluster) (ns : String) (tr : Trace)
    (hne : cl.Spec.Strategy ≠ "") (h : (strategyMap env).lookup cl.Spec.Strategy = none) :
    Extends BeforeLookup tr (DeleteClusterBase env cl ns tr).2 := by
  have hd : defaultStrategy cl = cl := by simp [defaultStrategy, hne]
  unfold DeleteClusterBase
  simp only [hd, h]
  refine Extends.record (Extends.refl _ _) _ _ ?_
  exact ⟨rfl, rfl⟩

theorem AddUpgradeBase_unresolved (env : Env) (consts : Consts) (upgrade : Pgupgrade)
    (cl : Pgcluster) (ns : String) (tr : Trace)
    (hne : cl.Spec.Strategy ≠ "") (h : (strategyMap env).lookup cl.Spec.Strategy = none) :
    Extends BeforeLookup tr (AddUpgradeBase env consts upgrade ns cl tr).2.2 := by
  have hd : defaultStrategy cl = cl := by simp [defaultStrategy, hne]
  unfold AddUpgradeBase
  simp only [hd, h]
  exact Extends.refl _ _

/-- C6: for a non-empty strategy id that is not a key of the registry, each of
`AddClusterBase`, `DeleteClusterBase`, `AddUpgradeBase`, `ScaleBase` and `ScaleDownBase`
only adds to the history calls of the steps before the registry lookup, none of which
is a strategy operation, the creation of a service, pooler or replica resource, or a
patch of a status or of the image tag. -/
theorem unknown_strategy_no_workload_effect (env : Env) (consts : Consts) (pgo : PgoConfig)
    (ns : String) (tr : Trace) (s : String) (hne : s ≠ "")
    (hs : (strategyMap env).lookup s = none) :
    (∀ cl : Pgcluster, cl.Spec.Strategy = s →
      Extends BeforeLookup tr (AddClusterBase env consts pgo cl ns tr).2) ∧
    (∀ cl : Pgcluster, cl.Spec.Strategy = s →
      Extends BeforeLookup tr (DeleteClusterBase env cl ns tr).2) ∧
    (∀ (cl : Pgcluster) (upgrade : Pgupgrade), cl.Spec.Strategy = s →
      Extends BeforeLookup tr (AddUpgradeBase env consts upgrade ns cl tr).2.2) ∧
    (∀ replica : Pgreplica,
      (env.Getpgcluster tr replica.Spec.ClusterName ns).1.Spec.Strategy = s →
      Extends BeforeLookup tr (ScaleBase env consts pgo replica ns tr).2) ∧
    (∀ replica : Pgreplica,
      (env.Getpgcluster tr replica.Spec.ClusterName ns).1.Spec.Strategy = s →
      Extends BeforeLookup tr (ScaleDownBase env replica ns tr).2) := by
  refine ⟨?_, ?_, ?_, ?_, ?_⟩
  · intro cl h
    subst h
    exact AddClusterBase_unresolved env consts pgo cl ns tr hne hs
  · intro cl h
    subst h
    exact DeleteClusterBase_unresolved env cl ns tr hne hs
  · intro cl upgrade h
    subst h
    exact AddUpgradeBase_unresolved env consts upgrade cl ns tr hne hs
  · intro replica h
    exact ScaleBase_unresolved env consts pgo replica ns tr (by rw [h]; exact hs)
  · intro replica h
    exact ScaleDownBase_unresolved env replica ns tr (by rw [h]; exact hs)

/-- The five routines at the strategy id "zz". -/
theorem unknown_strategy_no_workload_effect_witness :
    ("zz" ≠ "" ∧ (strategyMap envUnknownStrategy).lookup "zz" = none) ∧
    Extends BeforeLookup []
      (AddClusterBase envUnknownStrategy sampleConsts samplePgo unknownStrategyCluster "ns" []).2 ∧
    Extends BeforeLookup [] (DeleteClusterBase envUnknownStrategy unknownStrategyCluster "ns" []).2 ∧
    Extends BeforeLookup []
      (AddUpgradeBase envUnknownStrategy sampleConsts minorUpgrade "ns" unknownStrategyCluster
        []).2.2 ∧
    Extends BeforeLookup []
      (ScaleBase envUnknownStrategy sampleConsts samplePgo sampleReplica "ns" []).2 ∧
    Extends BeforeLookup [] (ScaleDownBase envUnknownStrategy sampleReplica "ns" []).2 :=
  ⟨⟨by decide, rfl⟩,
    (unknown_strategy_no_workload_effect envUnknownStrategy sampleConsts samplePgo "ns" [] "zz"
      (by decide) rfl).1 unknownStrategyCluster rfl,
    (unknown_strategy_no_workload_effect envUnknownStrategy sampleConsts samplePgo "ns" [] "zz"
      (by decide) rfl).2.1 unknownStrategyCluster rfl,
    (unknown_strategy_no_workload_effect envUnknownStrategy sampleConsts samplePgo "ns" [] "zz"
      (by decide) rfl).2.2.1 unknownStrategyCluster minorUpgrade rfl,
    (unknown_strategy_no_workload_effect envUnknownStrategy sampleConsts samplePgo "ns" [] "zz"
      (by decide) rfl).2.2.2.1 sampleReplica rfl,
    (unknown_strategy_no_workload_effect envUnknownStrategy sampleConsts samplePgo "ns" [] "zz"
      (by decide) rfl).2.2.2.2 sampleReplica rfl⟩

/-- C5 (what the code does): when the owning cluster is found and its strategy id is
empty, `ScaleBase` and `ScaleDownBase` do not substitute "1": the registry lookup of
the empty id fails, so neither invokes a strategy operation and `ScaleBase` never
patches `/spec/status`; all they add to the history are calls of the steps before the
lookup. -/
theorem Scale_empty_strategy_not_defaulted (env : Env) (consts : Consts) (pgo : PgoConfig)
    (replica : Pgreplica) (ns : String) (tr : Trace)
    (h : (env.Getpgcluster tr replica.Spec.ClusterName ns).1.Spec.Strategy = "") :
    Extends BeforeLookup tr (ScaleBase env consts pgo replica ns tr).2 ∧
      Extends BeforeLookup tr (ScaleDownBase env replica ns tr).2 := by
  have hl : (strategyMap env).lookup
      (env.Getpgcluster tr replica.Spec.ClusterName ns).1.Spec.Strategy = none := by
    rw [h]
    simp [strategyMap]
  exact ⟨ScaleBase_unresolved env consts pgo replica ns tr hl,
    ScaleDownBase_unresolved env replica ns tr hl⟩

/-- The two replica routines on a platform where every call succeeds and the owning
cluster has an empty strategy id: the calls they make. -/
theorem Scale_empty_strategy_not_defaulted_witness :
    (okEnv.Getpgcluster [] sampleReplica.Spec.ClusterName "ns").1.Spec.Strategy = "" ∧
    (Extends BeforeLookup [] (ScaleBase okEnv sampleConsts samplePgo sampleReplica "ns" []).2 ∧
      Extends BeforeLookup [] (ScaleDownBase okEnv sampleReplica "ns" []).2) ∧
    outline (ScaleBase okEnv sampleConsts samplePgo sampleReplica "ns" []).2 =
      [("Getpgcluster", none), ("CreatePVC", none), ("Patch /spec/replicastorage/name", none)] ∧
    outline (ScaleDownBase okEnv sampleReplica "ns" []).2 = [("Getpgcluster", none)] :=
  ⟨rfl, Scale_empty_strategy_not_defaulted okEnv sampleConsts samplePgo sampleReplica "ns" [] rfl,
    by decide, by decide⟩

/-! ### The steps of `AddClusterBase` after the registry lookup -/

theorem createReplicas_extends (env : Env) (consts : Consts) (pgo : PgoConfig)
    (cl : Pgcluster) (ns : String) (count : Nat) (tr : Trace) :
    Extends (PostEvent env consts pgo cl ns) tr (createReplicas env consts pgo cl ns count tr) := by
  induction count generalizing tr with
  | zero => exact Extends.refl _ _
  | succ n ih =>
    unfold createReplicas
    dsimp only
    refine Extends.trans ?_ (ih _)
    refine Extends.record (Extends.refl _ _) _ _ ?_
    exact ⟨tr, rfl⟩

theorem addReplicas_extends (env : Env) (consts : Consts) (pgo : PgoConfig) (cl : Pgcluster)
    (ns : String) (tr : Trace) :
    Extends (PostEvent env consts pgo cl ns) tr (addReplicas env consts pgo cl ns tr) := by
  unfold addReplicas
  dsimp only
  split_ifs
  · exact Extends.refl _ _
  · exact createReplicas_extends env consts pgo cl ns _ tr
  · exact Extends.refl _ _

theorem provEvent_of_post {env : Env} {consts : Consts} {pgo : PgoConfig} {cl : Pgcluster}
    {ns : String} (pvcName : String) {e : Event} (h : PostEvent env consts pgo cl ns e) :
    ProvEvent pvcName e := by
  obtain ⟨t, ht⟩ := h
  refine ⟨by simp [createsAnyClaim, ht], ?_, ?_⟩
  · intro k c n p hc
    rw [ht] at hc
    cases hc
  · intro v r nm n hc
    rw [ht] at hc
    cases hc

theorem provEvent_of_kind (pvcName : String) {e : Event} (h1 : createsAnyClaim e = false)
    (h2 : e.call.kind ≠ "Strategy.AddCluster")
    (h3 : e.call.kind ≠ "Patch /spec/PrimaryStorage/name") : ProvEvent pvcName e := by
  refine ⟨h1, ?_, ?_⟩
  · intro k c n p hc
    rw [hc] at h2
    exact absurd rfl h2
  · intro v r nm n hc
    rw [hc] at h3
    exact absurd rfl h3

theorem provisionCluster_extends (env : Env) (consts : Consts) (pgo : PgoConfig) (key : String)
    (strategy : Strategy) (cl : Pgcluster) (ns pvcName : String) (tr : Trace) :
    Extends (ProvEvent pvcName) tr
      (provisionCluster env consts pgo key strategy cl ns pvcName tr) := by
  unfold provisionCluster
  dsimp only
  refine Extends.trans ?_
    ((addReplicas_extends env consts pgo cl ns _).mono (fun e h => provEvent_of_post pvcName h))
  have hbase : ∀ e1 e2 e3 : Option String, Extends (ProvEvent pvcName) tr
      (record (record (record tr (.StrategyAddCluster key cl ns pvcName) e1)
        (.Patch "/spec/status" consts.UpgradeCompletedStatus consts.PgclusterResourcePlural
          cl.Spec.Name ns) e2)
        (.Patch "/spec/PrimaryStorage/name" pvcName consts.PgclusterResourcePlural
          cl.Spec.Name ns) e3) := by
    intro e1 e2 e3
    refine Extends.record (Extends.record (Extends.record (Extends.refl _ _) _ _ ?_) _ _ ?_)
      _ _ ?_
    · refine ⟨rfl, ?_, ?_⟩
      · intro k c n p hc
        simp only [Call.StrategyAddCluster.injEq] at hc
        exact hc.2.2.2.symm
      · intro v r nm n hc
        cases hc
    · refine ⟨rfl, ?_, ?_⟩
      · intro k c n p hc
        cases hc
      · intro v r nm n hc
        simp only [Call.Patch.injEq] at hc
        exact absurd hc.1 (by decide)
    · refine ⟨rfl, ?_, ?_⟩
      · intro k c n p hc
        cases hc
      · intro v r nm n hc
        simp only [Call.Patch.injEq] at hc
        exact hc.2.1.symm
  split_ifs
  · refine Extends.record (Extends.record (hbase _ _ _) _ _ ?_) _ _ ?_
    · exact provEvent_of_kind pvcName rfl (by simp [Call.kind]) (by simp [Call.kind])
    · exact provEvent_of_kind pvcName rfl (by simp [Call.kind]) (by simp [Call.kind])
  · refine Extends.record (hbase _ _ _) _ _ ?_
    exact provEvent_of_kind pvcName rfl (by simp [Call.kind]) (by simp [Call.kind])
  · refine Extends.record (hbase _ _ _) _ _ ?_
    exact provEvent_of_kind pvcName rfl (by simp [Call.kind]) (by simp [Call.kind])
  · exact hbase _ _ _

theorem acquirePrimaryPVC_found (env : Env) (cl : Pgcluster) (ns : String) (tr : Trace)
    (h : (env.GetPVC tr cl.Spec.Name ns).1 = true) :
    (acquirePrimaryPVC env cl ns tr).1 = some cl.Spec.Name := by
  simp [acquirePrimaryPVC, h]

theorem prepareCluster_pvcName (env : Env) (consts : Consts) (pgo : PgoConfig)
    (cl : Pgcluster) (ns : String) (tr : Trace) (p : String)
    (h : (prepareCluster env consts pgo cl ns tr).1 = some p) :
    (acquirePrimaryPVC env cl ns tr).1 = some p := by
  unfold prepareCluster at h
  generalize acquirePrimaryPVC env cl ns tr = q1 at h ⊢
  obtain ⟨_ | p1, t1⟩ := q1
  · simp at h
  dsimp only at h ⊢
  generalize acquireArchivePVC env cl ns t1 = q2 at h
  obtain ⟨_ | _, t2⟩ := q2
  · simp at h
  dsimp only at h
  generalize acquireBackrestPVC env consts pgo cl ns t2 = q3 at h
  obtain ⟨_ | _, t3⟩ := q3
  · simp at h
  dsimp only at h
  generalize applySecretFrom env consts (applyPassword cl) ns t3 = q4 at h
  obtain ⟨_ | _, c4, t4⟩ := q4
  · simp at h
  dsimp only at h
  generalize createDatabaseSecrets env consts c4 ns t4 = q5 at h
  obtain ⟨⟨p1, p2, p3, err⟩, c5, t5⟩ := q5
  dsimp only at h
  split_ifs at h
  simp only [Option.some.injEq] at h
  rw [h]

theorem AddClusterBase_events (env : Env) (consts : Consts) (pgo : PgoConfig) (cl : Pgcluster)
    (ns : String) (tr : Trace) :
    Extends (fun e => PrepEvent env e ∨
        ProvEvent ((acquirePrimaryPVC env cl ns tr).1.getD "") e) tr
      (AddClusterBase env consts pgo cl ns tr).2 := by
  rw [AddClusterBase_eq]
  split_ifs
  · exact Extends.refl _ _
  have hp := (prepareCluster_extends env consts pgo cl ns tr).1
  have hq := prepareCluster_pvcName env consts pgo cl ns tr
  generalize prepareCluster env consts pgo cl ns tr = q at hp hq
  obtain ⟨o, c1, t1⟩ := q
  have he1 := hp.mono (Q := fun e => PrepEvent env e ∨
    ProvEvent ((acquirePrimaryPVC env cl ns tr).1.getD "") e) (fun e h => Or.inl h)
  cases o with
  | none => exact he1
  | some p =>
    have hpn : (acquirePrimaryPVC env cl ns tr).1.getD "" = p := by
      rw [hq p rfl]
      rfl
    dsimp only
    split
    · exact he1
    · rename_i strategy _
      refine he1.trans ?_
      rw [hpn]
      exact (provisionCluster_extends env consts pgo _ strategy _ ns p t1).mono
        (fun e h => Or.inr h)

/-! ### Claims are created at most once -/

theorem createdClaim_eq_false_of_not_creates {c ns : String} {e : Event}
    (h : createsAnyClaim e = false) : createdClaim c ns e = false := by
  unfold createdClaim createsClaim
  unfold createsAnyClaim at h
  split at h
  · simp at h
  · simp_all

theorem CreatedAtMostOnce.of_extends {tr tr1 : Trace}
    (h : Extends (fun e => createsAnyClaim e = false) tr tr1) (ha : CreatedAtMostOnce tr) :
    CreatedAtMostOnce tr1 := by
  obtain ⟨new, rfl, hn⟩ := h
  intro c ns
  have hnil : new.filter (createdClaim c ns) = [] := by
    rw [List.filter_eq_nil_iff]
    intro e he
    simp [createdClaim_eq_false_of_not_creates (hn e he)]
  rw [List.filter_append, hnil, List.append_nil]
  exact ha c ns

theorem CreatedAtMostOnce.create {env : Env} (hr : Retains env) {tr : Trace}
    (ha : CreatedAtMostOnce tr) (name ns : String)
    (hf : (env.GetPVC tr name ns).1 = false) (e1 e2 : Option String) (st : PgStorageSpec)
    (owner : String) :
    CreatedAtMostOnce
      (record (record tr (.GetPVC name ns) e1) (.CreatePVC st name owner ns) e2) := by
  intro c ns1
  unfold Cluster.record
  rw [List.filter_append, List.filter_append]
  have h1 : List.filter (createdClaim c ns1) [(⟨.GetPVC name ns, e1⟩ : Event)] = [] := by
    simp [createdClaim, createsClaim]
  rw [h1, List.append_nil]
  by_cases hc : createdClaim c ns1 ⟨.CreatePVC st name owner ns, e2⟩ = true
  · have hcn : name = c ∧ ns = ns1 := by
      simp [createdClaim, createsClaim] at hc
      exact hc.1
    obtain ⟨rfl, rfl⟩ := hcn
    have h0 : tr.filter (createdClaim name ns) = [] := by
      rw [List.filter_eq_nil_iff]
      intro e he hce
      have := hr tr name ns ⟨e, he, hce⟩
      rw [hf] at this
      exact absurd this (by decide)
    rw [h0]
    simp [List.filter_cons, hc]
  · have h2 : List.filter (createdClaim c ns1)
        [(⟨.CreatePVC st name owner ns, e2⟩ : Event)] = [] := by
      simp [List.filter_cons, hc]
    rw [h2, List.append_nil]
    exact ha c ns1

theorem CreatedAtMostOnce.lookup {tr : Trace} (ha : CreatedAtMostOnce tr) (name ns : String)
    (e1 : Option String) : CreatedAtMostOnce (record tr (.GetPVC name ns) e1) :=
  CreatedAtMostOnce.of_extends (Extends.record (Extends.refl _ _) _ _ (by rfl)) ha

theorem acquirePrimaryPVC_atMostOnce {env : Env} (hr : Retains env) (cl : Pgcluster)
    (ns : String) {tr : Trace} (ha : CreatedAtMostOnce tr) :
    CreatedAtMostOnce (acquirePrimaryPVC env cl ns tr).2 := by
  unfold acquirePrimaryPVC
  by_cases hf : (env.GetPVC tr cl.Spec.Name ns).1 = true
  · simp only [hf, if_true]
    exact ha.lookup _ _ _
  · have hf1 : (env.GetPVC tr cl.Spec.Name ns).1 = false := by simpa using hf
    simp only [hf1, Bool.false_eq_true, if_false]
    split_ifs <;> exact CreatedAtMostOnce.create hr ha _ _ hf1 _ _ _ _

theorem acquireArchivePVC_atMostOnce {env : Env} (hr : Retains env) (cl : Pgcluster)
    (ns : String) {tr : Trace} (ha : CreatedAtMostOnce tr) :
    CreatedAtMostOnce (acquireArchivePVC env cl ns tr).2 := by
  unfold acquireArchivePVC
  by_cases hl : mapGet cl.Spec.UserLabels "archive" = "true"
  · simp only [hl, if_true]
    by_cases hf : (env.GetPVC tr (cl.Spec.Name ++ "-xlog") ns).1 = true
    · simp only [hf, if_true]
      exact ha.lookup _ _ _
    · have hf1 : (env.GetPVC tr (cl.Spec.Name ++ "-xlog") ns).1 = false := by simpa using hf
      simp only [hf1, Bool.false_eq_true, if_false]
      split_ifs <;> exact CreatedAtMostOnce.create hr ha _ _ hf1 _ _ _ _
  · simp only [hl, if_false]
    exact ha

theorem acquireBackrestPVC_atMostOnce {env : Env} (hr : Retains env) (consts : Consts)
    (pgo : PgoConfig) (cl : Pgcluster) (ns : String) {tr : Trace} (ha : CreatedAtMostOnce tr) :
    CreatedAtMostOnce (acquireBackrestPVC env consts pgo cl ns tr).2 := by
  unfold acquireBackrestPVC
  by_cases hl : mapGet cl.Spec.UserLabels consts.LABEL_BACKREST = "true"
  · simp only [hl, if_true]
    by_cases hf : (env.GetPVC tr (cl.Spec.Name ++ "-backrestrepo") ns).1 = true
    · simp only [hf, if_true]
      exact ha.lookup _ _ _
    · have hf1 : (env.GetPVC tr (cl.Spec.Name ++ "-backrestrepo") ns).1 = false := by
        simpa using hf
      simp only [hf1, Bool.false_eq_true, if_false]
      split_ifs <;> exact CreatedAtMostOnce.create hr ha _ _ hf1 _ _ _ _
  · simp only [hl, if_false]
    exact ha

theorem applySecretFrom_noClaim (env : Env) (consts : Consts) (cl : Pgcluster) (ns : String)
    (tr : Trace) :
    Extends (fun e => createsAnyClaim e = false) tr (applySecretFrom env consts cl ns tr).2.2 := by
  unfold applySecretFrom
  dsimp only
  split_ifs
  all_goals first
    | exact Extends.refl _ _
    | (refine Extends.record (Extends.record (Extends.record (Extends.refl _ _) _ _ ?_) _ _ ?_)
        _ _ ?_) <;> rfl

theorem createDatabaseSecrets_noClaim (env : Env) (consts : Consts) (cl : Pgcluster)
    (ns : String) (tr : Trace) :
    Extends (fun e => createsAnyClaim e = false) tr
      (createDatabaseSecrets env consts cl ns tr).2.2 := by
  unfold createDatabaseSecrets
  refine Extends.record (Extends.record (Extends.record (Extends.record (Extends.record
    (Extends.record (Extends.refl _ _) _ _ ?_) _ _ ?_) _ _ ?_) _ _ ?_) _ _ ?_) _ _ ?_ <;> rfl

theorem prepareCluster_atMostOnce {env : Env} (hr : Retains env) (consts : Consts)
    (pgo : PgoConfig) (cl : Pgcluster) (ns : String) {tr : Trace} (ha : CreatedAtMostOnce tr) :
    CreatedAtMostOnce (prepareCluster env consts pgo cl ns tr).2.2 := by
  unfold prepareCluster
  have h1 := acquirePrimaryPVC_atMostOnce hr cl ns ha
  generalize acquirePrimaryPVC env cl ns tr = q1 at h1
  obtain ⟨_ | p, t1⟩ := q1
  · exact h1
  dsimp only at h1 ⊢
  have h2 := acquireArchivePVC_atMostOnce hr cl ns h1
  generalize acquireArchivePVC env cl ns t1 = q2 at h2
  obtain ⟨_ | _, t2⟩ := q2
  · exact h2
  dsimp only at h2 ⊢
  have h3 := acquireBackrestPVC_atMostOnce hr consts pgo cl ns h2
  generalize acquireBackrestPVC env consts pgo cl ns t2 = q3 at h3
  obtain ⟨_ | _, t3⟩ := q3
  · exact h3
  dsimp only at h3 ⊢
  have h4 := CreatedAtMostOnce.of_extends
    (applySecretFrom_noClaim env consts (applyPassword cl) ns t3) h3
  generalize applySecretFrom env consts (applyPassword cl) ns t3 = q4 at h4
  obtain ⟨_ | _, c4, t4⟩ := q4
  · exact h4
  dsimp only at h4 ⊢
  have h5 := CreatedAtMostOnce.of_extends (createDatabaseSecrets_noClaim env consts c4 ns t4) h4
  generalize createDatabaseSecrets env consts c4 ns t4 = q5 at h5
  obtain ⟨⟨p1, p2, p3, err⟩, c5, t5⟩ := q5
  dsimp only at h5 ⊢
  split_ifs <;> exact h5

theorem AddClusterBase_atMostOnce {env : Env} (hr : Retains env) (consts : Consts)
    (pgo : PgoConfig) (cl : Pgcluster) (ns : String) {tr : Trace} (ha : CreatedAtMostOnce tr) :
    CreatedAtMostOnce (AddClusterBase env consts pgo cl ns tr).2 := by
  rw [AddClusterBase_eq]
  split_ifs
  · exact ha
  have hp := prepareCluster_atMostOnce hr consts pgo cl ns ha
  generalize prepareCluster env consts pgo cl ns tr = q at hp
  obtain ⟨o, c1, t1⟩ := q
  cases o with
  | none => exact hp
  | some p =>
    dsimp only
    split
    · exact hp
    · rename_i strategy _
      exact CreatedAtMostOnce.of_extends
        ((provisionCluster_extends env consts pgo _ strategy _ ns p t1).mono (fun e h => h.1)) hp

theorem retains_envRetaining : Retains envRetaining := by
  intro h c ns hex
  obtain ⟨e, he, hc⟩ := hex
  show h.any (createdClaim c ns) = true
  exact List.any_eq_true.2 ⟨e, he, hc⟩

theorem usesClaim_of_prepEvent {env : Env} (pvcName : String) {e : Event}
    (h : PrepEvent env e) : UsesClaim pvcName e := by
  obtain ⟨h1, -, -⟩ := h
  constructor
  · intro k c n p hc
    rw [hc] at h1
    exact absurd h1 (by simp [Call.precedesLookup])
  · intro v r nm n hc
    rw [hc] at h1
    exact absurd h1 (by simp [Call.precedesLookup])

theorem createsClaim_false_of_prepEvent {env : Env} {c ns : String}
    (hfound : ∀ h, (env.GetPVC h c ns).1 = true) {e : Event} (h : PrepEvent env e) :
    createsClaim c ns e = false := by
  obtain ⟨-, -, h3⟩ := h
  by_contra hne
  have ht : createsClaim c ns e = true := by simpa using hne
  unfold createsClaim at ht
  split at ht
  · rename_i st name owner ns1 hcall
    simp only [Bool.and_eq_true, decide_eq_true_eq] at ht
    obtain ⟨rfl, rfl⟩ := ht
    obtain ⟨t, hf⟩ := h3 st name owner ns1 hcall
    rw [hfound t] at hf
    exact absurd hf (by decide)
  · exact absurd ht (by decide)

theorem createsClaim_false_of_not_creates {c ns : String} {e : Event}
    (h : createsAnyClaim e = false) : createsClaim c ns e = false := by
  unfold createsClaim
  unfold createsAnyClaim at h
  split at h
  · simp at h
  · simp_all

/-! ### `strconv.Atoi` on a decimal string -/

theorem digitVal_digitChar : ∀ k, k < 10 → digitVal (Nat.digitChar k) = some k := by
  decide

theorem parseDigits_toDigitsCore (fuel : Nat) :
    ∀ n ds, n < fuel → ∃ pre, Nat.toDigitsCore 10 fuel n ds = pre ++ ds ∧ pre ≠ [] ∧
      ∀ acc rest, parseDigits (pre ++ rest) acc = parseDigits rest (acc * 10 ^ pre.length + n) := by
  induction fuel with
  | zero => intro n ds h; exact absurd h (Nat.not_lt_zero n)
  | succ fuel ih =>
    intro n ds hn
    unfold Nat.toDigitsCore
    dsimp only
    by_cases h0 : n / 10 = 0
    · rw [if_pos h0]
      have hlt : n < 10 := by omega
      refine ⟨[Nat.digitChar (n % 10)], rfl, by simp, ?_⟩
      intro acc rest
      have hm : n % 10 = n := Nat.mod_eq_of_lt hlt
      simp [parseDigits, hm, digitVal_digitChar n hlt]
    · rw [if_neg h0]
      have hlt : n / 10 < fuel := by omega
      obtain ⟨pre, hpre, hne, hparse⟩ := ih (n / 10) (Nat.digitChar (n % 10) :: ds) hlt
      refine ⟨pre ++ [Nat.digitChar (n % 10)], by simp [hpre], by simp, ?_⟩
      intro acc rest
      have hd : n % 10 < 10 := Nat.mod_lt _ (by decide)
      rw [List.append_assoc, hparse]
      simp only [List.singleton_append, parseDigits, digitVal_digitChar _ hd, List.length_append,
        List.length_singleton]
      congr 1
      have := Nat.div_add_mod n 10
      rw [pow_succ]
      nlinarith [Nat.div_add_mod n 10]

theorem parseDigits_repr (n : Nat) :
    (Nat.repr n).data ≠ [] ∧ parseDigits (Nat.repr n).data 0 = some n := by
  obtain ⟨pre, hpre, hne, hparse⟩ := parseDigits_toDigitsCore (n + 1) n [] (Nat.lt_succ_self n)
  have hdata : (Nat.repr n).data = pre := by
    show Nat.toDigitsCore 10 (n + 1) n [] = pre
    rw [hpre, List.append_nil]
  rw [hdata]
  refine ⟨hne, ?_⟩
  have := hparse 0 []
  simpa [parseDigits] using this

theorem Atoi_repr (n : Nat) (hn : n < 2 ^ 63) : Atoi (Nat.repr n) = ((n : Int), none) := by
  obtain ⟨hne, hparse⟩ := parseDigits_repr n
  unfold Atoi
  generalize (Nat.repr n).data = l at hne hparse
  cases l with
  | nil => exact absurd rfl hne
  | cons c cs =>
    have hdig : digitVal c ≠ none := by
      intro h
      simp [parseDigits, h] at hparse
    have hc1 : c ≠ '-' := by
      rintro rfl
      exact hdig (by decide)
    have hc2 : c ≠ '+' := by
      rintro rfl
      exact hdig (by decide)
    have hn1 : n < 9223372036854775808 := by
      have h63 : (2 : Nat) ^ 63 = 9223372036854775808 := by norm_num
      omega
    simp [hc1, hc2, hparse, hn1]

theorem repr_ne_empty (n : Nat) : Nat.repr n ≠ "" := by
  intro h
  have := (parseDigits_repr n).1
  rw [h] at this
  exact this rfl

/-! ### The replica fan-out -/

theorem succeeds_okEnv : Succeeds okEnv :=
  ⟨fun _ _ _ _ _ => rfl, fun _ _ _ => rfl, fun _ _ _ _ _ _ => rfl, fun _ _ _ _ _ _ => rfl⟩

theorem acquirePrimaryPVC_ok {env : Env} (hok : Succeeds env) (cl : Pgcluster) (ns : String)
    (tr : Trace) : ∃ p, (acquirePrimaryPVC env cl ns tr).1 = some p := by
  unfold acquirePrimaryPVC
  dsimp only
  split_ifs with h1 h2
  · exact ⟨_, rfl⟩
  · rw [hok.1] at h2
    exact absurd h2 (by decide)
  · exact ⟨_, rfl⟩

theorem acquireArchivePVC_ok {env : Env} (hok : Succeeds env) (cl : Pgcluster) (ns : String)
    (tr : Trace) : (acquireArchivePVC env cl ns tr).1 = true := by
  unfold acquireArchivePVC
  dsimp only
  split_ifs with h0 h1 h2
  · rfl
  · rw [hok.1] at h2
    exact absurd h2 (by decide)
  · rfl
  · rfl

theorem acquireBackrestPVC_ok {env : Env} (hok : Succeeds env) (consts : Consts)
    (pgo : PgoConfig) (cl : Pgcluster) (ns : String) (tr : Trace) :
    (acquireBackrestPVC env consts pgo cl ns tr).1 = true := by
  unfold acquireBackrestPVC
  dsimp only
  split_ifs with h0 h1 h2
  · rfl
  · rw [hok.1] at h2
    exact absurd h2 (by decide)
  · rfl
  · rfl

theorem applySecretFrom_ok {env : Env} (hok : Succeeds env) (consts : Consts) (cl : Pgcluster)
    (ns : String) (tr : Trace) : (applySecretFrom env consts cl ns tr).1 = true := by
  unfold applySecretFrom
  dsimp only
  split_ifs with h0 h1
  · simp [hok.2.1] at h1
  · rfl
  · rfl

theorem createDatabaseSecrets_ok {env : Env} (hok : Succeeds env) (consts : Consts)
    (cl : Pgcluster) (ns : String) (tr : Trace) :
    (createDatabaseSecrets env consts cl ns tr).1.2.2.2 = none := by
  unfold createDatabaseSecrets
  exact hok.2.2.2 _ _ _ _ _ _

theorem prepareCluster_ok {env : Env} (hok : Succeeds env) (consts : Consts) (pgo : PgoConfig)
    (cl : Pgcluster) (ns : String) (tr : Trace) :
    ∃ p, (prepareCluster env consts pgo cl ns tr).1 = some p := by
  unfold prepareCluster
  obtain ⟨p, h1⟩ := acquirePrimaryPVC_ok hok cl ns tr
  generalize acquirePrimaryPVC env cl ns tr = q1 at h1
  obtain ⟨o1, t1⟩ := q1
  dsimp only at h1
  subst h1
  dsimp only
  have h2 := acquireArchivePVC_ok hok cl ns t1
  generalize acquireArchivePVC env cl ns t1 = q2 at h2
  obtain ⟨o2, t2⟩ := q2
  dsimp only at h2
  subst h2
  dsimp only
  have h3 := acquireBackrestPVC_ok hok consts pgo cl ns t2
  generalize acquireBackrestPVC env consts pgo cl ns t2 = q3 at h3
  obtain ⟨o3, t3⟩ := q3
  dsimp only at h3
  subst h3
  dsimp only
  have h4 := applySecretFrom_ok hok consts (applyPassword cl) ns t3
  generalize applySecretFrom env consts (applyPassword cl) ns t3 = q4 at h4
  obtain ⟨o4, c4, t4⟩ := q4
  dsimp only at h4
  subst h4
  dsimp only
  have h5 := createDatabaseSecrets_ok hok consts c4 ns t4
  generalize createDatabaseSecrets env consts c4 ns t4 = q5 at h5
  obtain ⟨⟨p1, p2, p3, err⟩, c5, t5⟩ := q5
  dsimp only at h5
  subst h5
  exact ⟨p, by simp⟩

theorem replicaPosts_append (a b : Trace) :
    replicaPosts (a ++ b) = replicaPosts a ++ replicaPosts b := by
  simp [replicaPosts, List.filterMap_append]

theorem replicaPosts_of_extends {tr tr1 : Trace}
    (h : Extends (fun e => ∀ a b c, e.call ≠ .PostPgreplica a b c) tr tr1) :
    replicaPosts tr1 = replicaPosts tr := by
  obtain ⟨new, rfl, hn⟩ := h
  rw [replicaPosts_append]
  have : replicaPosts new = [] := by
    unfold replicaPosts
    rw [List.filterMap_eq_nil_iff]
    intro e he
    have := hn e he
    split
    · rename_i a b c hc
      exact absurd hc (this a b c)
    · rfl
  rw [this, List.append_nil]

theorem replicaPosts_record_post (tr : Trace) (a b : String) (body : Pgreplica)
    (err : Option String) :
    replicaPosts (record tr (.PostPgreplica a b body) err) = replicaPosts tr ++ [body] := by
  unfold Cluster.record
  rw [replicaPosts_append]
  rfl

theorem notPost_of_prepEvent {env : Env} {e : Event} (h : PrepEvent env e) :
    ∀ a b c, e.call ≠ .PostPgreplica a b c := by
  intro a b c hc
  have h1 := h.1
  rw [hc] at h1
  exact absurd h1 (by simp [Call.precedesLookup])

theorem createReplicas_posts (env : Env) (consts : Consts) (pgo : PgoConfig) (cl : Pgcluster)
    (ns : String) (count : Nat) :
    ∀ tr : Trace, ∃ suffixes : List String, suffixes.length = count ∧
      (∀ s ∈ suffixes, ∃ h, s = env.RandStringBytesRmndr h 4) ∧
      replicaPosts (createReplicas env consts pgo cl ns count tr) =
        replicaPosts tr ++ suffixes.map (newReplica consts pgo cl) := by
  induction count with
  | zero =>
    intro tr
    exact ⟨[], rfl, by simp, by simp [createReplicas]⟩
  | succ n ih =>
    intro tr
    unfold createReplicas
    dsimp only
    obtain ⟨sfx, hlen, hall, hposts⟩ := ih (record tr
      (.PostPgreplica consts.PgreplicaResourcePlural ns
        (newReplica consts pgo cl (env.RandStringBytesRmndr tr 4)))
      (env.PostPgreplica tr consts.PgreplicaResourcePlural ns
        (newReplica consts pgo cl (env.RandStringBytesRmndr tr 4))))
    refine ⟨env.RandStringBytesRmndr tr 4 :: sfx, by simp [hlen], ?_, ?_⟩
    · intro s hs
      rcases List.mem_cons.1 hs with rfl | hs1
      · exact ⟨tr, rfl⟩
      · exact hall s hs1
    · rw [hposts, replicaPosts_record_post]
      simp

theorem provisionCluster_eq_addReplicas (env : Env) (consts : Consts) (pgo : PgoConfig)
    (key : String) (strategy : Strategy) (cl : Pgcluster) (ns pvcName : String) (tr : Trace) :
    ∃ X : Trace, provisionCluster env consts pgo key strategy cl ns pvcName tr =
        addReplicas env consts pgo cl ns X ∧ replicaPosts X = replicaPosts tr := by
  unfold provisionCluster
  dsimp only
  refine ⟨_, rfl, ?_⟩
  apply replicaPosts_of_extends
  split_ifs <;>
    repeat (first
      | exact Extends.refl _ _
      | refine Extends.record ?_ _ _ (by intro a b c hc; cases hc))

theorem newReplica_eq_of (consts : Consts) (pgo : PgoConfig) {cl cl1 : Pgcluster}
    (h1 : cl1.Spec.Name = cl.Spec.Name) (h2 : cl1.Spec.UserLabels = cl.Spec.UserLabels)
    (h3 : cl1.Spec.ContainerResources = cl.Spec.ContainerResources) :
    newReplica consts pgo cl1 = newReplica consts pgo cl := by
  funext s
  simp [newReplica, h1, h2, h3]

theorem newReplica_fields (consts : Consts) (pgo : PgoConfig) (cl : Pgcluster) (s : String) :
    (newReplica consts pgo cl s).Spec.ClusterName = cl.Spec.Name ∧
    (newReplica consts pgo cl s).Spec.Name = cl.Spec.Name ++ "-" ++ s ∧
    (newReplica consts pgo cl s).ObjectMeta.Name = cl.Spec.Name ++ "-" ++ s ∧
    (newReplica consts pgo cl s).Status.State = consts.PgreplicaStateCreated ∧
    (newReplica consts pgo cl s).Status.Message = "Created, not processed yet" := by
  simp [newReplica, mapGet, mapSet]

theorem replicaName_injective (name : String) :
    Function.Injective (fun s : String => name ++ "-" ++ s) := by
  intro s t h
  have h1 := congrArg String.data h
  simp only [String.data_append, List.append_assoc] at h1
  have h2 := List.append_cancel_left (List.append_cancel_left h1)
  exact String.ext h2

theorem succeeds_envDistinctSuffixes : Succeeds envDistinctSuffixes :=
  ⟨fun _ _ _ _ _ => rfl, fun _ _ _ => rfl, fun _ _ _ _ _ _ => rfl, fun _ _ _ _ _ _ => rfl⟩

theorem addReplicas_parse_error (env : Env) (consts : Consts) (pgo : PgoConfig)
    (cl : Pgcluster) (ns : String) (tr : Trace) (h : (Atoi cl.Spec.Replicas).2 ≠ none) :
    addReplicas env consts pgo cl ns tr = tr := by
  unfold addReplicas
  dsimp only
  split_ifs with h1 h2
  · rfl
  · exact absurd (by simpa using h2) h
  · rfl

theorem addReplicas_repr (env : Env) (consts : Consts) (pgo : PgoConfig) (cl : Pgcluster)
    (ns : String) (tr : Trace) (n : Nat) (hn : n < 2 ^ 63) (h : cl.Spec.Replicas = Nat.repr n) :
    addReplicas env consts pgo cl ns tr = createReplicas env consts pgo cl ns n tr := by
  unfold addReplicas
  dsimp only
  rw [h, Atoi_repr n hn]
  simp [repr_ne_empty n]

theorem defaultStrategy_fields (cl : Pgcluster) :
    (defaultStrategy cl).Spec.Name = cl.Spec.Name ∧
    (defaultStrategy cl).Spec.Replicas = cl.Spec.Replicas ∧
    (defaultStrategy cl).Spec.UserLabels = cl.Spec.UserLabels ∧
    (defaultStrategy cl).Spec.ContainerResources = cl.Spec.ContainerResources := by
  unfold defaultStrategy
  split_ifs <;> exact ⟨rfl, rfl, rfl, rfl⟩

theorem AddClusterBase_posts_parse_error (env : Env) (consts : Consts) (pgo : PgoConfig)
    (cl : Pgcluster) (ns : String) (tr : Trace) (h : (Atoi cl.Spec.Replicas).2 ≠ none) :
    replicaPosts (AddClusterBase env consts pgo cl ns tr).2 = replicaPosts tr := by
  rw [AddClusterBase_eq]
  split_ifs
  · rfl
  have hp := prepareCluster_extends env consts pgo cl ns tr
  generalize prepareCluster env consts pgo cl ns tr = q at hp
  obtain ⟨o, c1, t1⟩ := q
  obtain ⟨he, hsame⟩ := hp
  have h1 : replicaPosts t1 = replicaPosts tr :=
    replicaPosts_of_extends (he.mono (fun e h => notPost_of_prepEvent h))
  cases o with
  | none => exact h1
  | some p =>
    dsimp only
    split
    · exact h1
    · rename_i strategy _
      obtain ⟨X, hX, hXp⟩ := provisionCluster_eq_addReplicas env consts pgo
        (defaultStrategy c1).Spec.Strategy strategy (defaultStrategy c1) ns p t1
      have hrep : (defaultStrategy c1).Spec.Replicas = cl.Spec.Replicas := by
        rw [(defaultStrategy_fields c1).2.1, hsame.2.1]
      dsimp only
      rw [hX, addReplicas_parse_error _ _ _ _ _ _ (by rw [hrep]; exact h), hXp, h1]

theorem AddClusterBase_posts_success (env : Env) (consts : Consts) (pgo : PgoConfig)
    (cl : Pgcluster) (ns : String) (tr : Trace) (n : Nat) (hn : n < 2 ^ 63)
    (hrep : cl.Spec.Replicas = Nat.repr n) (hok : Succeeds env)
    (hst : cl.Spec.Status ≠ consts.UpgradeCompletedStatus)
    (hstrat : cl.Spec.Strategy = "" ∨ cl.Spec.Strategy = "1") :
    ∃ suffixes : List String, suffixes.length = n ∧
      (∀ s ∈ suffixes, ∃ h, s = env.RandStringBytesRmndr h 4) ∧
      replicaPosts (AddClusterBase env consts pgo cl ns tr).2 =
        replicaPosts tr ++ suffixes.map (newReplica consts pgo cl) := by
  rw [AddClusterBase_eq, if_neg hst]
  have hp := prepareCluster_extends env consts pgo cl ns tr
  obtain ⟨p, hpok⟩ := prepareCluster_ok hok consts pgo cl ns tr
  generalize prepareCluster env consts pgo cl ns tr = q at hp hpok
  obtain ⟨o, c1, t1⟩ := q
  obtain ⟨he, hsame⟩ := hp
  dsimp only at hpok
  subst hpok
  have h1 : replicaPosts t1 = replicaPosts tr :=
    replicaPosts_of_extends (he.mono (fun e h => notPost_of_prepEvent h))
  have hk : (defaultStrategy c1).Spec.Strategy = "1" := by
    have hs1 : c1.Spec.Strategy = cl.Spec.Strategy := hsame.2.2.2.2.2.2
    rcases hstrat with h | h <;> simp [defaultStrategy, hs1, h]
  have hl : (strategyMap env).lookup "1" = some env.Strategy1 := by simp [strategyMap]
  dsimp only
  rw [hk, hl]
  dsimp only
  obtain ⟨X, hX, hXp⟩ := provisionCluster_eq_addReplicas env consts pgo "1" env.Strategy1
    (defaultStrategy c1) ns p t1
  have hf := defaultStrategy_fields c1
  have hrep1 : (defaultStrategy c1).Spec.Replicas = Nat.repr n := by
    rw [hf.2.1, hsame.2.1, hrep]
  have hnew : newReplica consts pgo (defaultStrategy c1) = newReplica consts pgo cl :=
    newReplica_eq_of consts pgo (hf.1.trans hsame.1) (hf.2.2.1.trans hsame.2.2.1)
      (hf.2.2.2.trans hsame.2.2.2.1)
  obtain ⟨sfx, hlen, hall, hposts⟩ :=
    createReplicas_posts env consts pgo (defaultStrategy c1) ns n X
  refine ⟨sfx, hlen, hall, ?_⟩
  rw [hX, addReplicas_repr _ _ _ _ _ _ n hn hrep1, hposts, hXp, h1, hnew]

/-- C8 (amended): when the replica count is the decimal string of a number `n` below
`2 ^ 63` and every step that could stop the routine succeeds, `AddClusterBase` issues
exactly `n` replica create requests, one for each of `n` answers of
`util.RandStringBytesRmndr(4)`; the replica built from the answer `s` has the cluster
name as `ClusterName`, the name `<clusterName>-s`, the state `PgreplicaStateCreated`
and the message "Created, not processed yet"; the `n` names are pairwise distinct
exactly when the `n` answers are.  A replica count that `strconv.Atoi` rejects creates
no replica. -/
theorem AddClusterBase_replica_fanout (env : Env) (consts : Consts) (pgo : PgoConfig)
    (cl : Pgcluster) (ns : String) (tr : Trace) :
    (∀ n : Nat, n < 2 ^ 63 → cl.Spec.Replicas = Nat.repr n → Succeeds env →
      cl.Spec.Status ≠ consts.UpgradeCompletedStatus →
      (cl.Spec.Strategy = "" ∨ cl.Spec.Strategy = "1") →
      ∃ suffixes : List String, suffixes.length = n ∧
        (∀ s ∈ suffixes, ∃ h, s = env.RandStringBytesRmndr h 4) ∧
        replicaPosts (AddClusterBase env consts pgo cl ns tr).2 =
          replicaPosts tr ++ suffixes.map (newReplica consts pgo cl) ∧
        ((suffixes.map fun s => (newReplica consts pgo cl s).Spec.Name).Nodup ↔
          suffixes.Nodup)) ∧
    (∀ s : String,
      (newReplica consts pgo cl s).Spec.ClusterName = cl.Spec.Name ∧
      (newReplica consts pgo cl s).Spec.Name = cl.Spec.Name ++ "-" ++ s ∧
      (newReplica consts pgo cl s).ObjectMeta.Name = cl.Spec.Name ++ "-" ++ s ∧
      (newReplica consts pgo cl s).Status.State = consts.PgreplicaStateCreated ∧
      (newReplica consts pgo cl s).Status.Message = "Created, not processed yet") ∧
    ((Atoi cl.Spec.Replicas).2 ≠ none →
      replicaPosts (AddClusterBase env consts pgo cl ns tr).2 = replicaPosts tr) := by
  refine ⟨?_, newReplica_fields consts pgo cl, AddClusterBase_posts_parse_error env consts pgo
    cl ns tr⟩
  intro n hn hrep hok hst hstrat
  obtain ⟨sfx, hlen, hall, hposts⟩ :=
    AddClusterBase_posts_success env consts pgo cl ns tr n hn hrep hok hst hstrat
  refine ⟨sfx, hlen, hall, hposts, ?_⟩
  have hname : (fun s => (newReplica consts pgo cl s).Spec.Name) =
      fun s : String => cl.Spec.Name ++ "-" ++ s := by
    funext s
    exact (newReplica_fields consts pgo cl s).2.1
  rw [hname]
  exact List.nodup_map_iff (replicaName_injective cl.Spec.Name)

/-- The replica fan-out for two replicas with distinct generated suffixes, and for a
replica count that is not a number. -/
theorem AddClusterBase_replica_fanout_witness :
    (∃ suffixes : List String, suffixes.length = 2 ∧
      (∀ s ∈ suffixes, ∃ h, s = envDistinctSuffixes.RandStringBytesRmndr h 4) ∧
      replicaPosts
          (AddClusterBase envDistinctSuffixes sampleConsts samplePgo twoReplicaCluster "ns" []).2 =
        replicaPosts [] ++ suffixes.map (newReplica sampleConsts samplePgo twoReplicaCluster) ∧
      ((suffixes.map fun s =>
          (newReplica sampleConsts samplePgo twoReplicaCluster s).Spec.Name).Nodup ↔
        suffixes.Nodup)) ∧
    (Atoi badReplicaCluster.Spec.Replicas).2 ≠ none ∧
    replicaPosts
        (AddClusterBase envDistinctSuffixes sampleConsts samplePgo badReplicaCluster "ns" []).2 =
      replicaPosts [] ∧
    (replicaPosts
        (AddClusterBase envDistinctSuffixes sampleConsts samplePgo twoReplicaCluster "ns"
          []).2).map (fun r => r.Spec.Name) = ["db-r11", "db-r12"] :=
  ⟨(AddClusterBase_replica_fanout envDistinctSuffixes sampleConsts samplePgo twoReplicaCluster
      "ns" []).1 2 (by norm_num) (by decide) succeeds_envDistinctSuffixes (by decide)
      (Or.inl rfl),
    by decide,
    (AddClusterBase_replica_fanout envDistinctSuffixes sampleConsts samplePgo badReplicaCluster
      "ns" []).2.2 (by decide),
    by decide⟩

/-- C8 (counterexample): with the replica count "2" and a generator that answers
"abcd" twice, the two replicas created carry the same name; and with the replica count
the decimal string of `2 ^ 63`, which `strconv.Atoi` rejects as out of range, no
replica is created although every earlier step succeeded. -/
theorem AddClusterBase_replica_names_repeat :
    twoReplicaCluster.Spec.Replicas = Nat.repr 2 ∧
    (replicaPosts (AddClusterBase okEnv sampleConsts samplePgo twoReplicaCluster "ns" []).2).map
      (fun r => r.Spec.Name) = ["db-abcd", "db-abcd"] ∧
    ¬ ((replicaPosts
      (AddClusterBase okEnv sampleConsts samplePgo twoReplicaCluster "ns" []).2).map
      (fun r => r.Spec.Name)).Nodup ∧
    hugeReplicaCluster.Spec.Replicas = Nat.repr (2 ^ 63) ∧
    replicaPosts (AddClusterBase okEnv sampleConsts samplePgo hugeReplicaCluster "ns" []).2 =
      [] := by
  refine ⟨by decide, by decide, by decide, by decide, by decide⟩

/-! ### Claim reuse at the lookups of `AddClusterBase` -/

theorem guardedBy_of_not_create {env : Env} (name ns : String) (h : Trace) {e : Event}
    (hc : createsAnyClaim e = false) : GuardedBy env name ns h e := by
  intro st c owner ns1 hcall
  simp [createsAnyClaim, hcall] at hc

theorem guardedBy_create {env : Env} (st : PgStorageSpec) (name owner ns : String)
    (err : Option String) (h : Trace) (hf : (env.GetPVC h name ns).1 = false) :
    GuardedBy env name ns h ⟨.CreatePVC st name owner ns, err⟩ := by
  intro st1 c1 owner1 ns1 hc
  simp only [Call.CreatePVC.injEq] at hc
  obtain ⟨-, rfl, -, rfl⟩ := hc
  exact ⟨rfl, rfl, hf⟩

theorem acquirePrimaryPVC_guarded (env : Env) (cl : Pgcluster) (ns : String) (tr : Trace) :
    Extends (GuardedBy env cl.Spec.Name ns tr) tr (acquirePrimaryPVC env cl ns tr).2 := by
  unfold acquirePrimaryPVC
  by_cases hf : (env.GetPVC tr cl.Spec.Name ns).1 = true
  · simp only [hf, if_true]
    refine Extends.record (Extends.refl _ _) _ _ ?_
    exact guardedBy_of_not_create _ _ _ rfl
  · have hf1 : (env.GetPVC tr cl.Spec.Name ns).1 = false := by simpa using hf
    simp only [hf1, Bool.false_eq_true, if_false]
    split_ifs <;>
    · refine Extends.record (Extends.record (Extends.refl _ _) _ _ ?_) _ _ ?_
      · exact guardedBy_of_not_create _ _ _ rfl
      · exact guardedBy_create _ _ _ _ _ tr hf1

theorem acquireArchivePVC_guarded (env : Env) (cl : Pgcluster) (ns : String) (tr : Trace) :
    Extends (GuardedBy env (cl.Spec.Name ++ "-xlog") ns tr) tr
      (acquireArchivePVC env cl ns tr).2 := by
  unfold acquireArchivePVC
  by_cases hl : mapGet cl.Spec.UserLabels "archive" = "true"
  · simp only [hl, if_true]
    by_cases hf : (env.GetPVC tr (cl.Spec.Name ++ "-xlog") ns).1 = true
    · simp only [hf, if_true]
      refine Extends.record (Extends.refl _ _) _ _ ?_
      exact guardedBy_of_not_create _ _ _ rfl
    · have hf1 : (env.GetPVC tr (cl.Spec.Name ++ "-xlog") ns).1 = false := by simpa using hf
      simp only [hf1, Bool.false_eq_true, if_false]
      split_ifs <;>
      · refine Extends.record (Extends.record (Extends.refl _ _) _ _ ?_) _ _ ?_
        · exact guardedBy_of_not_create _ _ _ rfl
        · exact guardedBy_create _ _ _ _ _ tr hf1
  · simp only [hl, if_false]
    exact Extends.refl _ _

theorem acquireBackrestPVC_guarded (env : Env) (consts : Consts) (pgo : PgoConfig)
    (cl : Pgcluster) (ns : String) (tr : Trace) :
    Extends (GuardedBy env (cl.Spec.Name ++ "-backrestrepo") ns tr) tr
      (acquireBackrestPVC env consts pgo cl ns tr).2 := by
  unfold acquireBackrestPVC
  by_cases hl : mapGet cl.Spec.UserLabels consts.LABEL_BACKREST = "true"
  · simp only [hl, if_true]
    by_cases hf : (env.GetPVC tr (cl.Spec.Name ++ "-backrestrepo") ns).1 = true
    · simp only [hf, if_true]
      refine Extends.record (Extends.refl _ _) _ _ ?_
      exact guardedBy_of_not_create _ _ _ rfl
    · have hf1 : (env.GetPVC tr (cl.Spec.Name ++ "-backrestrepo") ns).1 = false := by
        simpa using hf
      simp only [hf1, Bool.false_eq_true, if_false]
      split_ifs <;>
      · refine Extends.record (Extends.record (Extends.refl _ _) _ _ ?_) _ _ ?_
        · exact guardedBy_of_not_create _ _ _ rfl
        · exact guardedBy_create _ _ _ _ _ tr hf1
  · simp only [hl, if_false]
    exact Extends.refl _ _

theorem guardedAt_of_not_create {env : Env} (name ns : String) (h1 h2 h3 : Trace) {e : Event}
    (hc : createsAnyClaim e = false) : GuardedAt env name ns h1 h2 h3 e :=
  Or.inl (guardedBy_of_not_create _ _ _ hc)

theorem prepareCluster_guarded (env : Env) (consts : Consts) (pgo : PgoConfig)
    (cl : Pgcluster) (ns : String) (tr : Trace) :
    Extends (GuardedAt env cl.Spec.Name ns tr (archiveLookup env cl ns tr)
        (backrestLookup env cl ns tr)) tr
      (prepareCluster env consts pgo cl ns tr).2.2 := by
  unfold prepareCluster backrestLookup archiveLookup
  have h1 := acquirePrimaryPVC_guarded env cl ns tr
  generalize acquirePrimaryPVC env cl ns tr = q1 at h1 ⊢
  obtain ⟨o1, t1⟩ := q1
  dsimp only at h1 ⊢
  have g1 : Extends (GuardedAt env cl.Spec.Name ns tr t1 (acquireArchivePVC env cl ns t1).2)
      tr t1 := h1.mono (fun e h => Or.inl h)
  cases o1 with
  | none => exact g1
  | some p =>
    dsimp only
    have g2 := g1.trans ((acquireArchivePVC_guarded env cl ns t1).mono
      (Q := GuardedAt env cl.Spec.Name ns tr t1 (acquireArchivePVC env cl ns t1).2)
      (fun e h => Or.inr (Or.inl h)))
    generalize acquireArchivePVC env cl ns t1 = q2 at g2 ⊢
    obtain ⟨o2, t2⟩ := q2
    dsimp only at g2 ⊢
    cases o2 with
    | false => exact g2
    | true =>
      dsimp only
      have g3 := g2.trans ((acquireBackrestPVC_guarded env consts pgo cl ns t2).mono
        (Q := GuardedAt env cl.Spec.Name ns tr t1 t2) (fun e h => Or.inr (Or.inr h)))
      generalize acquireBackrestPVC env consts pgo cl ns t2 = q3 at g3 ⊢
      obtain ⟨o3, t3⟩ := q3
      dsimp only at g3 ⊢
      cases o3 with
      | false => exact g3
      | true =>
        dsimp only
        have g4 := g3.trans ((applySecretFrom_noClaim env consts (applyPassword cl) ns t3).mono
          (Q := GuardedAt env cl.Spec.Name ns tr t1 t2)
          (fun e h => guardedAt_of_not_create _ _ _ _ _ h))
        generalize applySecretFrom env consts (applyPassword cl) ns t3 = q4 at g4 ⊢
        obtain ⟨o4, c4, t4⟩ := q4
        dsimp only at g4 ⊢
        cases o4 with
        | false => exact g4
        | true =>
          dsimp only
          have g5 := g4.trans ((createDatabaseSecrets_noClaim env consts c4 ns t4).mono
            (Q := GuardedAt env cl.Spec.Name ns tr t1 t2)
            (fun e h => guardedAt_of_not_create _ _ _ _ _ h))
          generalize createDatabaseSecrets env consts c4 ns t4 = q5 at g5 ⊢
          obtain ⟨⟨p1, p2, p3, err⟩, c5, t5⟩ := q5
          dsimp only at g5 ⊢
          split_ifs <;> exact g5

theorem AddClusterBase_guarded (env : Env) (consts : Consts) (pgo : PgoConfig)
    (cl : Pgcluster) (ns : String) (tr : Trace) :
    Extends (GuardedAt env cl.Spec.Name ns tr (archiveLookup env cl ns tr)
        (backrestLookup env cl ns tr)) tr
      (AddClusterBase env consts pgo cl ns tr).2 := by
  rw [AddClusterBase_eq]
  split_ifs
  · exact Extends.refl _ _
  have hp := prepareCluster_guarded env consts pgo cl ns tr
  generalize prepareCluster env consts pgo cl ns tr = q at hp
  obtain ⟨o, c1, t1⟩ := q
  cases o with
  | none => exact hp
  | some p =>
    dsimp only
    split
    · exact hp
    · rename_i strategy _
      exact hp.trans ((provisionCluster_extends env consts pgo _ strategy _ ns p t1).mono
        (fun e h => guardedAt_of_not_create _ _ _ _ _ h.1))

theorem added_append (tr new : Trace) : added tr (tr ++ new) = new := by
  simp [added]

theorem Extends.forall_added {P : Event → Prop} {tr tr1 : Trace} (h : Extends P tr tr1) :
    ∀ e ∈ added tr tr1, P e := by
  obtain ⟨new, rfl, hn⟩ := h
  rw [added_append]
  exact hn

theorem Extends.eq_append {P : Event → Prop} {tr tr1 : Trace} (h : Extends P tr tr1) :
    tr1 = tr ++ added tr tr1 := by
  obtain ⟨new, rfl, -⟩ := h
  rw [added_append]

theorem Extends.mem {P : Event → Prop} {tr tr1 : Trace} (h : Extends P tr tr1) {e : Event}
    (he : e ∈ tr) : e ∈ tr1 := by
  obtain ⟨new, rfl, -⟩ := h
  exact List.mem_append_left _ he

theorem xlog_ne_self (s : String) : s ++ "-xlog" ≠ s := by
  intro h
  have h1 := congrArg String.length h
  rw [String.length_append] at h1
  have h2 : "-xlog".length = 5 := by decide
  omega

theorem backrestrepo_ne_self (s : String) : s ++ "-backrestrepo" ≠ s := by
  intro h
  have h1 := congrArg String.length h
  rw [String.length_append] at h1
  have h2 : "-backrestrepo".length = 13 := by decide
  omega

theorem xlog_ne_backrestrepo (s : String) : s ++ "-xlog" ≠ s ++ "-backrestrepo" := by
  intro h
  have h1 := congrArg String.length h
  rw [String.length_append, String.length_append] at h1
  have h2 : "-xlog".length = 5 := by decide
  have h3 : "-backrestrepo".length = 13 := by decide
  omega

theorem call_of_createsClaim {c ns : String} {e : Event} (h : createsClaim c ns e = true) :
    ∃ st owner, e.call = .CreatePVC st c owner ns := by
  unfold createsClaim at h
  split at h
  · rename_i st name owner ns1 hcall
    simp only [Bool.and_eq_true, decide_eq_true_eq] at h
    obtain ⟨rfl, rfl⟩ := h
    exact ⟨st, owner, hcall⟩
  · exact absurd h (by decide)

theorem guardedAt_cases {env : Env} {name ns c : String} {h1 h2 h3 : Trace} {e : Event}
    (hg : GuardedAt env name ns h1 h2 h3 e) (hc : createsClaim c ns e = true) :
    (c = name ∧ (env.GetPVC h1 c ns).1 = false) ∨
      (c = name ++ "-xlog" ∧ (env.GetPVC h2 c ns).1 = false) ∨
      (c = name ++ "-backrestrepo" ∧ (env.GetPVC h3 c ns).1 = false) := by
  obtain ⟨st, owner, hcall⟩ := call_of_createsClaim hc
  rcases hg with g | g | g
  · obtain ⟨-, rfl, hf⟩ := g st c owner ns hcall
    exact Or.inl ⟨rfl, hf⟩
  · obtain ⟨-, rfl, hf⟩ := g st c owner ns hcall
    exact Or.inr (Or.inl ⟨rfl, hf⟩)
  · obtain ⟨-, rfl, hf⟩ := g st c owner ns hcall
    exact Or.inr (Or.inr ⟨rfl, hf⟩)

theorem not_createsClaim_of_not_true {c ns : String} {e : Event}
    (h : createsClaim c ns e = true → False) : createsClaim c ns e = false := by
  cases hb : createsClaim c ns e
  · rfl
  · exact absurd hb h

theorem guardedAt_primary_found {env : Env} {name ns : String} {h1 h2 h3 : Trace} {e : Event}
    (hg : GuardedAt env name ns h1 h2 h3 e) (hf : (env.GetPVC h1 name ns).1 = true) :
    createsClaim name ns e = false := by
  apply not_createsClaim_of_not_true
  intro hc
  rcases guardedAt_cases hg hc with ⟨-, h⟩ | ⟨h, -⟩ | ⟨h, -⟩
  · rw [hf] at h
    exact absurd h (by decide)
  · exact xlog_ne_self name h.symm
  · exact backrestrepo_ne_self name h.symm

theorem guardedAt_archive_found {env : Env} {name ns : String} {h1 h2 h3 : Trace} {e : Event}
    (hg : GuardedAt env name ns h1 h2 h3 e)
    (hf : (env.GetPVC h2 (name ++ "-xlog") ns).1 = true) :
    createsClaim (name ++ "-xlog") ns e = false := by
  apply not_createsClaim_of_not_true
  intro hc
  rcases guardedAt_cases hg hc with ⟨h, -⟩ | ⟨-, h⟩ | ⟨h, -⟩
  · exact xlog_ne_self name h
  · rw [hf] at h
    exact absurd h (by decide)
  · exact xlog_ne_backrestrepo name h

theorem guardedAt_backrest_found {env : Env} {name ns : String} {h1 h2 h3 : Trace} {e : Event}
    (hg : GuardedAt env name ns h1 h2 h3 e)
    (hf : (env.GetPVC h3 (name ++ "-backrestrepo") ns).1 = true) :
    createsClaim (name ++ "-backrestrepo") ns e = false := by
  apply not_createsClaim_of_not_true
  intro hc
  rcases guardedAt_cases hg hc with ⟨h, -⟩ | ⟨h, -⟩ | ⟨-, h⟩
  · exact backrestrepo_ne_self name h
  · exact xlog_ne_backrestrepo name h.symm
  · rw [hf] at h
    exact absurd h (by decide)

theorem guardedAt_retained {env : Env} (hr : Retains env) {name ns c : String}
    {h1 h2 h3 : Trace} {e : Event} (hg : GuardedAt env name ns h1 h2 h3 e)
    (hc1 : ∃ x ∈ h1, createdClaim c ns x = true) (hc2 : ∃ x ∈ h2, createdClaim c ns x = true)
    (hc3 : ∃ x ∈ h3, createdClaim c ns x = true) : createsClaim c ns e = false := by
  apply not_createsClaim_of_not_true
  intro hc
  rcases guardedAt_cases hg hc with ⟨-, h⟩ | ⟨-, h⟩ | ⟨-, h⟩
  · rw [hr h1 c ns hc1] at h
    exact absurd h (by decide)
  · rw [hr h2 c ns hc2] at h
    exact absurd h (by decide)
  · rw [hr h3 c ns hc3] at h
    exact absurd h (by decide)

theorem archiveLookup_extends (env : Env) (cl : Pgcluster) (ns : String) (tr : Trace) :
    Extends (fun _ => True) tr (archiveLookup env cl ns tr) :=
  (acquirePrimaryPVC_guarded env cl ns tr).mono (fun _ _ => trivial)

theorem backrestLookup_extends (env : Env) (cl : Pgcluster) (ns : String) (tr : Trace) :
    Extends (fun _ => True) tr (backrestLookup env cl ns tr) :=
  (archiveLookup_extends env cl ns tr).trans
    ((acquireArchivePVC_guarded env cl ns _).mono (fun _ _ => trivial))

theorem AddClusterBase_no_repeat_request {env : Env} (hr : Retains env) (consts : Consts)
    (pgo : PgoConfig) (cl : Pgcluster) (ns : String) (tr : Trace) (c : String)
    (hc : ∃ x ∈ tr, createdClaim c ns x = true) :
    ∀ e ∈ added tr (AddClusterBase env consts pgo cl ns tr).2, createsClaim c ns e = false := by
  intro e he
  have hg := (AddClusterBase_guarded env consts pgo cl ns tr).forall_added e he
  obtain ⟨x, hx, hxc⟩ := hc
  exact guardedAt_retained hr hg ⟨x, hx, hxc⟩
    ⟨x, (archiveLookup_extends env cl ns tr).mem hx, hxc⟩
    ⟨x, (backrestLookup_extends env cl ns tr).mem hx, hxc⟩

theorem starts_of_extends {P : Event → Prop} {t t1 final : Trace} {ev : Event}
    (h1 : ∃ more, t1 = t ++ ev :: more) (h2 : Extends P t1 final) :
    ∃ rest, final = t ++ ev :: rest := by
  obtain ⟨more, rfl⟩ := h1
  obtain ⟨new, rfl, -⟩ := h2
  exact ⟨more ++ new, by simp⟩

theorem acquirePrimaryPVC_starts (env : Env) (cl : Pgcluster) (ns : String) (tr : Trace) :
    ∃ more, (acquirePrimaryPVC env cl ns tr).2 = tr ++ primaryLookupEvent env cl ns tr :: more := by
  unfold acquirePrimaryPVC primaryLookupEvent
  dsimp only
  split_ifs
  · exact ⟨[], rfl⟩
  · exact ⟨_, by simp [Cluster.record]; rfl⟩
  · exact ⟨_, by simp [Cluster.record]; rfl⟩

theorem acquireArchivePVC_starts (env : Env) (cl : Pgcluster) (ns : String) (tr : Trace)
    (hl : mapGet cl.Spec.UserLabels "archive" = "true") :
    ∃ more, (acquireArchivePVC env cl ns tr).2 =
      tr ++ ⟨.GetPVC (cl.Spec.Name ++ "-xlog") ns,
        (env.GetPVC tr (cl.Spec.Name ++ "-xlog") ns).2⟩ :: more := by
  unfold acquireArchivePVC
  simp only [hl, if_true]
  split_ifs
  · exact ⟨[], rfl⟩
  · exact ⟨_, by simp [Cluster.record]; rfl⟩
  · exact ⟨_, by simp [Cluster.record]; rfl⟩

theorem acquireBackrestPVC_starts (env : Env) (consts : Consts) (pgo : PgoConfig)
    (cl : Pgcluster) (ns : String) (tr : Trace)
    (hl : mapGet cl.Spec.UserLabels consts.LABEL_BACKREST = "true") :
    ∃ more, (acquireBackrestPVC env consts pgo cl ns tr).2 =
      tr ++ ⟨.GetPVC (cl.Spec.Name ++ "-backrestrepo") ns,
        (env.GetPVC tr (cl.Spec.Name ++ "-backrestrepo") ns).2⟩ :: more := by
  unfold acquireBackrestPVC
  simp only [hl, if_true]
  split_ifs
  · exact ⟨[], rfl⟩
  · exact ⟨_, by simp [Cluster.record]; rfl⟩
  · exact ⟨_, by simp [Cluster.record]; rfl⟩

theorem prepareCluster_continues (env : Env) (consts : Consts) (pgo : PgoConfig)
    (cl : Pgcluster) (ns : String) (tr : Trace) :
    Extends (fun _ => True) (archiveLookup env cl ns tr)
        (prepareCluster env consts pgo cl ns tr).2.2 ∧
      ((acquirePrimaryPVC env cl ns tr).1.isSome = true →
        Extends (fun _ => True) (backrestLookup env cl ns tr)
          (prepareCluster env consts pgo cl ns tr).2.2) ∧
      ((acquirePrimaryPVC env cl ns tr).1.isSome = true →
        (acquireArchivePVC env cl ns (archiveLookup env cl ns tr)).1 = true →
        Extends (fun _ => True)
          (acquireBackrestPVC env consts pgo cl ns (backrestLookup env cl ns tr)).2
          (prepareCluster env consts pgo cl ns tr).2.2) := by
  unfold prepareCluster backrestLookup archiveLookup
  generalize acquirePrimaryPVC env cl ns tr = q1
  obtain ⟨o1, t1⟩ := q1
  cases o1 with
  | none =>
    dsimp only
    exact ⟨Extends.refl _ _, fun h => absurd h (by decide), fun h => absurd h (by decide)⟩
  | some p =>
    dsimp only
    have a2 : Extends (fun _ => True) t1 (acquireArchivePVC env cl ns t1).2 :=
      (acquireArchivePVC_guarded env cl ns t1).mono (fun _ _ => trivial)
    generalize acquireArchivePVC env cl ns t1 = q2 at a2 ⊢
    obtain ⟨o2, t2⟩ := q2
    dsimp only at a2 ⊢
    cases o2 with
    | false =>
      dsimp only
      exact ⟨a2, fun _ => Extends.refl _ _, fun _ h => absurd h (by decide)⟩
    | true =>
      dsimp only
      have hrest : Extends (fun _ => True)
          (acquireBackrestPVC env consts pgo cl ns t2).2
          (match acquireBackrestPVC env consts pgo cl ns t2 with
            | (false, tr) => (none, cl, tr)
            | (true, tr) =>
              match applySecretFrom env consts (applyPassword cl) ns tr with
              | (false, cl, tr) => (none, cl, tr)
              | (true, cl, tr) =>
                match createDatabaseSecrets env consts cl ns tr with
                | ((_, _, _, err), cl, tr) =>
                  if err.isSome then (none, cl, tr) else (some p, cl, tr)).2.2 := by
        generalize acquireBackrestPVC env consts pgo cl ns t2 = q3
        obtain ⟨o3, t3⟩ := q3
        cases o3 with
        | false => exact Extends.refl _ _
        | true =>
          dsimp only
          have a4 : Extends (fun _ => True) t3
              (applySecretFrom env consts (applyPassword cl) ns t3).2.2 :=
            (applySecretFrom_noClaim env consts (applyPassword cl) ns t3).mono
              (fun _ _ => trivial)
          generalize applySecretFrom env consts (applyPassword cl) ns t3 = q4 at a4 ⊢
          obtain ⟨o4, c4, t4⟩ := q4
          dsimp only at a4 ⊢
          cases o4 with
          | false => exact a4
          | true =>
            dsimp only
            have a5 := a4.trans ((createDatabaseSecrets_noClaim env consts c4 ns t4).mono
              (Q := fun _ => True) (fun _ _ => trivial))
            generalize createDatabaseSecrets env consts c4 ns t4 = q5 at a5 ⊢
            obtain ⟨⟨p1, p2, p3, err⟩, c5, t5⟩ := q5
            dsimp only at a5 ⊢
            split_ifs <;> exact a5
      have a3 : Extends (fun _ => True) t2 (acquireBackrestPVC env consts pgo cl ns t2).2 :=
        (acquireBackrestPVC_guarded env consts pgo cl ns t2).mono (fun _ _ => trivial)
      exact ⟨a2.trans (a3.trans hrest), fun _ => a3.trans hrest, fun _ _ => hrest⟩

theorem AddClusterBase_continues (env : Env) (consts : Consts) (pgo : PgoConfig)
    (cl : Pgcluster) (ns : String) (tr : Trace)
    (hst : cl.Spec.Status ≠ consts.UpgradeCompletedStatus) :
    Extends (fun _ => True) (prepareCluster env consts pgo cl ns tr).2.2
      (AddClusterBase env consts pgo cl ns tr).2 := by
  rw [AddClusterBase_eq, if_neg hst]
  generalize prepareCluster env consts pgo cl ns tr = q
  obtain ⟨o, c1, t1⟩ := q
  cases o with
  | none => exact Extends.refl _ _
  | some p =>
    dsimp only
    split
    · exact Extends.refl _ _
    · rename_i strategy _
      exact (provisionCluster_extends env consts pgo _ strategy _ ns p t1).mono
        (fun _ _ => trivial)

theorem three_then {P : Event → Prop} {tr final : Trace} {a b c : Event}
    (h : Extends P (tr ++ [a] ++ [b] ++ [c]) final) :
    ∃ rest, final = tr ++ a :: b :: c :: rest := by
  obtain ⟨new, rfl, -⟩ := h
  exact ⟨new, by simp⟩

theorem provisionCluster_issues (env : Env) (consts : Consts) (pgo : PgoConfig) (key : String)
    (strategy : Strategy) (cl : Pgcluster) (ns pvcName : String) (tr : Trace) :
    ∃ e1 e2 e3 rest, provisionCluster env consts pgo key strategy cl ns pvcName tr =
      tr ++ ⟨.StrategyAddCluster key cl ns pvcName, e1⟩ ::
        ⟨.Patch "/spec/status" consts.UpgradeCompletedStatus consts.PgclusterResourcePlural
          cl.Spec.Name ns, e2⟩ ::
        ⟨.Patch "/spec/PrimaryStorage/name" pvcName consts.PgclusterResourcePlural
          cl.Spec.Name ns, e3⟩ :: rest := by
  unfold provisionCluster
  dsimp only
  generalize strategy.AddCluster tr cl ns pvcName = e1
  generalize env.Patch (record tr (.StrategyAddCluster key cl ns pvcName) e1) "/spec/status"
    consts.UpgradeCompletedStatus consts.PgclusterResourcePlural cl.Spec.Name ns = e2
  generalize env.Patch (record (record tr (.StrategyAddCluster key cl ns pvcName) e1)
    (.Patch "/spec/status" consts.UpgradeCompletedStatus consts.PgclusterResourcePlural
      cl.Spec.Name ns) e2) "/spec/PrimaryStorage/name" pvcName consts.PgclusterResourcePlural
    cl.Spec.Name ns = e3
  refine ⟨e1, e2, e3, ?_⟩
  apply three_then (P := fun _ => True)
  refine Extends.trans ?_ ((addReplicas_extends env consts pgo cl ns _).mono
    (fun _ _ => trivial))
  split_ifs <;>
    repeat (first
      | exact Extends.refl _ _
      | refine Extends.record ?_ _ _ trivial)

theorem AddClusterBase_issues (env : Env) (consts : Consts) (pgo : PgoConfig) (cl : Pgcluster)
    (ns : String) (tr : Trace) (hst : cl.Spec.Status ≠ consts.UpgradeCompletedStatus)
    (p : String) (strategy : Strategy)
    (hp : (prepareCluster env consts pgo cl ns tr).1 = some p)
    (hl : (strategyMap env).lookup
      (defaultStrategy (prepareCluster env consts pgo cl ns tr).2.1).Spec.Strategy =
        some strategy) :
    ∃ cl1 e1 e2, cl1.Spec.Name = cl.Spec.Name ∧
      cl1 = defaultStrategy (prepareCluster env consts pgo cl ns tr).2.1 ∧
      (⟨.StrategyAddCluster cl1.Spec.Strategy cl1 ns p, e1⟩ : Event) ∈
        added tr (AddClusterBase env consts pgo cl ns tr).2 ∧
      (⟨.Patch "/spec/PrimaryStorage/name" p consts.PgclusterResourcePlural cl.Spec.Name ns,
        e2⟩ : Event) ∈ added tr (AddClusterBase env consts pgo cl ns tr).2 := by
  rw [AddClusterBase_eq, if_neg hst]
  have hx := prepareCluster_extends env consts pgo cl ns tr
  generalize prepareCluster env consts pgo cl ns tr = q at hx hp hl
  obtain ⟨o, c1, t1⟩ := q
  obtain ⟨⟨new1, hnew1, -⟩, hsame⟩ := hx
  dsimp only at hp hl hnew1 hsame
  subst hp
  dsimp only
  rw [hl]
  dsimp only
  obtain ⟨e1, e2, e3, rest, hprov⟩ := provisionCluster_issues env consts pgo
    (defaultStrategy c1).Spec.Strategy strategy (defaultStrategy c1) ns p t1
  have hname : (defaultStrategy c1).Spec.Name = cl.Spec.Name :=
    (defaultStrategy_fields c1).1.trans hsame.1
  refine ⟨defaultStrategy c1, e1, e3, hname, rfl, ?_, ?_⟩
  · rw [hprov, hnew1, List.append_assoc, added_append]
    simp
  · rw [hprov, hnew1, List.append_assoc, added_append, hname]
    simp

theorem added_self (tr : Trace) : added tr tr = [] := by
  simp [added]

theorem AddClusterBase_workload (env : Env) (consts : Consts) (pgo : PgoConfig)
    (cl : Pgcluster) (ns : String) (tr : Trace) :
    (∀ e ∈ added tr (AddClusterBase env consts pgo cl ns tr).2, BeforeLookup e) ∨
      ∃ cl1 p e1 e2, cl1.Spec.Name = cl.Spec.Name ∧
        (acquirePrimaryPVC env cl ns tr).1 = some p ∧
        (⟨.StrategyAddCluster cl1.Spec.Strategy cl1 ns p, e1⟩ : Event) ∈
          added tr (AddClusterBase env consts pgo cl ns tr).2 ∧
        (⟨.Patch "/spec/PrimaryStorage/name" p consts.PgclusterResourcePlural cl.Spec.Name ns,
          e2⟩ : Event) ∈ added tr (AddClusterBase env consts pgo cl ns tr).2 := by
  by_cases hst : cl.Spec.Status = consts.UpgradeCompletedStatus
  · left
    rw [AddClusterBase_eq, if_pos hst]
    dsimp only
    rw [added_self]
    intro e he
    cases he
  rcases hpo : (prepareCluster env consts pgo cl ns tr).1 with _ | p
  · left
    rw [AddClusterBase_eq, if_neg hst]
    have hx := (prepareCluster_extends env consts pgo cl ns tr).1
    generalize prepareCluster env consts pgo cl ns tr = q at hx hpo
    obtain ⟨o, c1, t1⟩ := q
    dsimp only at hpo hx
    subst hpo
    exact (hx.mono (fun e h => ⟨h.1, h.2.1⟩)).forall_added
  rcases hlo : (strategyMap env).lookup
      (defaultStrategy (prepareCluster env consts pgo cl ns tr).2.1).Spec.Strategy
    with _ | strategy
  · left
    rw [AddClusterBase_eq, if_neg hst]
    have hx := (prepareCluster_extends env consts pgo cl ns tr).1
    generalize prepareCluster env consts pgo cl ns tr = q at hx hpo hlo
    obtain ⟨o, c1, t1⟩ := q
    dsimp only at hpo hx hlo
    subst hpo
    dsimp only
    rw [hlo]
    exact (hx.mono (fun e h => ⟨h.1, h.2.1⟩)).forall_added
  · right
    obtain ⟨cl1, e1, e2, hname, -, h1, h2⟩ :=
      AddClusterBase_issues env consts pgo cl ns tr hst p strategy hpo hlo
    exact ⟨cl1, p, e1, e2, hname, prepareCluster_pvcName env consts pgo cl ns tr p hpo, h1, h2⟩

theorem AddClusterBase_workload_reached (env : Env) (consts : Consts) (pgo : PgoConfig)
    (cl : Pgcluster) (ns : String) (tr : Trace) (hok : Succeeds env)
    (hst : cl.Spec.Status ≠ consts.UpgradeCompletedStatus)
    (hstrat : cl.Spec.Strategy = "" ∨ cl.Spec.Strategy = "1") :
    ∃ cl1 p e1 e2, cl1.Spec.Name = cl.Spec.Name ∧
      (acquirePrimaryPVC env cl ns tr).1 = some p ∧
      (⟨.StrategyAddCluster "1" cl1 ns p, e1⟩ : Event) ∈
        added tr (AddClusterBase env consts pgo cl ns tr).2 ∧
      (⟨.Patch "/spec/PrimaryStorage/name" p consts.PgclusterResourcePlural cl.Spec.Name ns,
        e2⟩ : Event) ∈ added tr (AddClusterBase env consts pgo cl ns tr).2 := by
  obtain ⟨p, hp⟩ := prepareCluster_ok hok consts pgo cl ns tr
  have hsame := (prepareCluster_extends env consts pgo cl ns tr).2
  have hk : (defaultStrategy (prepareCluster env consts pgo cl ns tr).2.1).Spec.Strategy =
      "1" := by
    have hs1 : (prepareCluster env consts pgo cl ns tr).2.1.Spec.Strategy = cl.Spec.Strategy :=
      hsame.2.2.2.2.2.2
    rcases hstrat with h | h <;> simp [defaultStrategy, hs1, h]
  have hl : (strategyMap env).lookup
      (defaultStrategy (prepareCluster env consts pgo cl ns tr).2.1).Spec.Strategy =
        some env.Strategy1 := by
    rw [hk]
    simp [strategyMap]
  obtain ⟨cl1, e1, e2, hname, hcl1, h1, h2⟩ :=
    AddClusterBase_issues env consts pgo cl ns tr hst p env.Strategy1 hp hl
  have hk1 : cl1.Spec.Strategy = "1" := by rw [hcl1]; exact hk
  rw [hk1] at h1
  exact ⟨cl1, p, e1, e2, hname, prepareCluster_pvcName env consts pgo cl ns tr p hp, h1, h2⟩

theorem AddClusterBase_first_lookup (env : Env) (consts : Consts) (pgo : PgoConfig)
    (cl : Pgcluster) (ns : String) (tr : Trace)
    (hst : cl.Spec.Status ≠ consts.UpgradeCompletedStatus) :
    ∃ rest, (AddClusterBase env consts pgo cl ns tr).2 =
      tr ++ primaryLookupEvent env cl ns tr :: rest :=
  starts_of_extends (acquirePrimaryPVC_starts env cl ns tr)
    ((prepareCluster_continues env consts pgo cl ns tr).1.trans
      (AddClusterBase_continues env consts pgo cl ns tr hst))

theorem AddClusterBase_archive_lookup (env : Env) (consts : Consts) (pgo : PgoConfig)
    (cl : Pgcluster) (ns : String) (tr : Trace)
    (hst : cl.Spec.Status ≠ consts.UpgradeCompletedStatus)
    (hl : mapGet cl.Spec.UserLabels "archive" = "true")
    (hp : (acquirePrimaryPVC env cl ns tr).1.isSome = true) :
    ∃ rest, (AddClusterBase env consts pgo cl ns tr).2 =
      archiveLookup env cl ns tr ++
        ⟨.GetPVC (cl.Spec.Name ++ "-xlog") ns,
          (env.GetPVC (archiveLookup env cl ns tr) (cl.Spec.Name ++ "-xlog") ns).2⟩ :: rest :=
  starts_of_extends (acquireArchivePVC_starts env cl ns (archiveLookup env cl ns tr) hl)
    (((prepareCluster_continues env consts pgo cl ns tr).2.1 hp).trans
      (AddClusterBase_continues env consts pgo cl ns tr hst))

theorem AddClusterBase_backrest_lookup (env : Env) (consts : Consts) (pgo : PgoConfig)
    (cl : Pgcluster) (ns : String) (tr : Trace)
    (hst : cl.Spec.Status ≠ consts.UpgradeCompletedStatus)
    (hl : mapGet cl.Spec.UserLabels consts.LABEL_BACKREST = "true")
    (hp : (acquirePrimaryPVC env cl ns tr).1.isSome = true)
    (ha : (acquireArchivePVC env cl ns (archiveLookup env cl ns tr)).1 = true) :
    ∃ rest, (AddClusterBase env consts pgo cl ns tr).2 =
      backrestLookup env cl ns tr ++
        ⟨.GetPVC (cl.Spec.Name ++ "-backrestrepo") ns,
          (env.GetPVC (backrestLookup env cl ns tr) (cl.Spec.Name ++ "-backrestrepo") ns).2⟩ ::
          rest :=
  starts_of_extends
    (acquireBackrestPVC_starts env consts pgo cl ns (backrestLookup env cl ns tr) hl)
    (((prepareCluster_continues env consts pgo cl ns tr).2.2 hp ha).trans
      (AddClusterBase_continues env consts pgo cl ns tr hst))

theorem succeeds_envRetaining : Succeeds envRetaining :=
  ⟨fun _ _ _ _ _ => rfl, fun _ _ _ => rfl, fun _ _ _ _ _ _ => rfl, fun _ _ _ _ _ _ => rfl⟩

/-- C10: `AddClusterBase`, started at the history `tr` on a cluster that is not complete,
first looks up the claim named after the cluster.  If that lookup finds the claim, the
run issues no create request for it, every `Strategy.AddCluster` call and every patch
of `/spec/PrimaryStorage/name` it makes carries the cluster name, and it does make both
unless it stops before the workload step (it makes both when every fallible step
succeeds).  The claims `<name>-xlog` and `<name>-backrestrepo` are looked up, when
their flag is "true" and the steps before did not return, at the histories
`archiveLookup` and `backrestLookup`; if that lookup finds the claim, the run issues no
create request for it.  On a platform that retains created claims, a run issues no
create request for a claim whose creation the history already records, and two runs in
a row create no claim twice. -/
theorem AddClusterBase_claim_reuse (env : Env) (consts : Consts) (pgo : PgoConfig)
    (cl : Pgcluster) (ns : String) (tr : Trace) :
    (cl.Spec.Status ≠ consts.UpgradeCompletedStatus →
      ∃ rest, added tr (AddClusterBase env consts pgo cl ns tr).2 =
        primaryLookupEvent env cl ns tr :: rest) ∧
    ((env.GetPVC tr cl.Spec.Name ns).1 = true →
      (∀ e ∈ added tr (AddClusterBase env consts pgo cl ns tr).2,
        createsClaim cl.Spec.Name ns e = false ∧ UsesClaim cl.Spec.Name e) ∧
      ((∀ e ∈ added tr (AddClusterBase env consts pgo cl ns tr).2, BeforeLookup e) ∨
        ∃ cl1 e1 e2, cl1.Spec.Name = cl.Spec.Name ∧
          (⟨.StrategyAddCluster cl1.Spec.Strategy cl1 ns cl.Spec.Name, e1⟩ : Event) ∈
            added tr (AddClusterBase env consts pgo cl ns tr).2 ∧
          (⟨.Patch "/spec/PrimaryStorage/name" cl.Spec.Name consts.PgclusterResourcePlural
            cl.Spec.Name ns, e2⟩ : Event) ∈
            added tr (AddClusterBase env consts pgo cl ns tr).2) ∧
      (Succeeds env → cl.Spec.Status ≠ consts.UpgradeCompletedStatus →
        (cl.Spec.Strategy = "" ∨ cl.Spec.Strategy = "1") →
        ∃ cl1 e1 e2, cl1.Spec.Name = cl.Spec.Name ∧
          (⟨.StrategyAddCluster "1" cl1 ns cl.Spec.Name, e1⟩ : Event) ∈
            added tr (AddClusterBase env consts pgo cl ns tr).2 ∧
          (⟨.Patch "/spec/PrimaryStorage/name" cl.Spec.Name consts.PgclusterResourcePlural
            cl.Spec.Name ns, e2⟩ : Event) ∈
            added tr (AddClusterBase env consts pgo cl ns tr).2)) ∧
    (cl.Spec.Status ≠ consts.UpgradeCompletedStatus →
      mapGet cl.Spec.UserLabels "archive" = "true" →
      (acquirePrimaryPVC env cl ns tr).1.isSome = true →
      ∃ rest, (AddClusterBase env consts pgo cl ns tr).2 =
        archiveLookup env cl ns tr ++
          ⟨.GetPVC (cl.Spec.Name ++ "-xlog") ns,
            (env.GetPVC (archiveLookup env cl ns tr) (cl.Spec.Name ++ "-xlog") ns).2⟩ ::
            rest) ∧
    ((env.GetPVC (archiveLookup env cl ns tr) (cl.Spec.Name ++ "-xlog") ns).1 = true →
      ∀ e ∈ added tr (AddClusterBase env consts pgo cl ns tr).2,
        createsClaim (cl.Spec.Name ++ "-xlog") ns e = false) ∧
    (cl.Spec.Status ≠ consts.UpgradeCompletedStatus →
      mapGet cl.Spec.UserLabels consts.LABEL_BACKREST = "true" →
      (acquirePrimaryPVC env cl ns tr).1.isSome = true →
      (acquireArchivePVC env cl ns (archiveLookup env cl ns tr)).1 = true →
      ∃ rest, (AddClusterBase env consts pgo cl ns tr).2 =
        backrestLookup env cl ns tr ++
          ⟨.GetPVC (cl.Spec.Name ++ "-backrestrepo") ns,
            (env.GetPVC (backrestLookup env cl ns tr) (cl.Spec.Name ++ "-backrestrepo")
              ns).2⟩ :: rest) ∧
    ((env.GetPVC (backrestLookup env cl ns tr) (cl.Spec.Name ++ "-backrestrepo") ns).1 = true →
      ∀ e ∈ added tr (AddClusterBase env consts pgo cl ns tr).2,
        createsClaim (cl.Spec.Name ++ "-backrestrepo") ns e = false) ∧
    (Retains env →
      (∀ c, (∃ x ∈ tr, createdClaim c ns x = true) →
        ∀ e ∈ added tr (AddClusterBase env consts pgo cl ns tr).2,
          createsClaim c ns e = false) ∧
      (CreatedAtMostOnce tr → CreatedAtMostOnce (AddClusterBase env consts pgo cl ns tr).2) ∧
      (∀ cl2 : Pgcluster, CreatedAtMostOnce
        (AddClusterBase env consts pgo cl2 ns (AddClusterBase env consts pgo cl ns []).2).2)) := by
  have hg := AddClusterBase_guarded env consts pgo cl ns tr
  refine ⟨?_, ?_, ?_, ?_, ?_, ?_, ?_⟩
  · intro hst
    obtain ⟨rest, hrest⟩ := AddClusterBase_first_lookup env consts pgo cl ns tr hst
    exact ⟨rest, by rw [hrest, added_append]⟩
  · intro hfound
    have hp := acquirePrimaryPVC_found env cl ns tr hfound
    refine ⟨?_, ?_, ?_⟩
    · intro e he
      refine ⟨guardedAt_primary_found (hg.forall_added e he) hfound, ?_⟩
      have hev := AddClusterBase_events env consts pgo cl ns tr
      rw [hp] at hev
      rcases hev.forall_added e he with h | h
      · exact usesClaim_of_prepEvent _ h
      · exact h.2
    · rcases AddClusterBase_workload env consts pgo cl ns tr with h | h
      · exact Or.inl h
      · obtain ⟨cl1, p, e1, e2, hname, hpp, h1, h2⟩ := h
        rw [hp] at hpp
        simp only [Option.some.injEq] at hpp
        subst hpp
        exact Or.inr ⟨cl1, e1, e2, hname, h1, h2⟩
    · intro hok hst hstrat
      obtain ⟨cl1, p, e1, e2, hname, hpp, h1, h2⟩ :=
        AddClusterBase_workload_reached env consts pgo cl ns tr hok hst hstrat
      rw [hp] at hpp
      simp only [Option.some.injEq] at hpp
      subst hpp
      exact ⟨cl1, e1, e2, hname, h1, h2⟩
  · intro hst hl hp
    exact AddClusterBase_archive_lookup env consts pgo cl ns tr hst hl hp
  · intro hfound e he
    exact guardedAt_archive_found (hg.forall_added e he) hfound
  · intro hst hl hp ha
    exact AddClusterBase_backrest_lookup env consts pgo cl ns tr hst hl hp ha
  · intro hfound e he
    exact guardedAt_backrest_found (hg.forall_added e he) hfound
  · intro hr
    refine ⟨?_, ?_, ?_⟩
    · intro c hc
      exact AddClusterBase_no_repeat_request hr consts pgo cl ns tr c hc
    · intro ha
      exact AddClusterBase_atMostOnce hr consts pgo cl ns ha
    · intro cl2
      have h0 : CreatedAtMostOnce [] := by
        intro c ns1
        simp
      exact AddClusterBase_atMostOnce hr consts pgo cl2 ns
        (AddClusterBase_atMostOnce hr consts pgo cl ns h0)

/-- The claim reuse at the second of two runs on the cluster "db" with the archive and
backrest flags, on a platform that retains the three claims the first run creates. -/
theorem AddClusterBase_claim_reuse_witness :
    (∃ rest, added firstRun secondRun =
      primaryLookupEvent envRetaining archivedCluster "ns" firstRun :: rest) ∧
    (envRetaining.GetPVC firstRun archivedCluster.Spec.Name "ns").1 = true ∧
    (∀ e ∈ added firstRun secondRun,
      createsClaim archivedCluster.Spec.Name "ns" e = false ∧
        UsesClaim archivedCluster.Spec.Name e) ∧
    (∃ cl1 e1 e2, cl1.Spec.Name = archivedCluster.Spec.Name ∧
      (⟨.StrategyAddCluster "1" cl1 "ns" archivedCluster.Spec.Name, e1⟩ : Event) ∈
        added firstRun secondRun ∧
      (⟨.Patch "/spec/PrimaryStorage/name" archivedCluster.Spec.Name
        sampleConsts.PgclusterResourcePlural archivedCluster.Spec.Name "ns", e2⟩ : Event) ∈
        added firstRun secondRun) ∧
    (∃ rest, secondRun =
      archiveLookup envRetaining archivedCluster "ns" firstRun ++
        ⟨.GetPVC (archivedCluster.Spec.Name ++ "-xlog") "ns",
          (envRetaining.GetPVC (archiveLookup envRetaining archivedCluster "ns" firstRun)
            (archivedCluster.Spec.Name ++ "-xlog") "ns").2⟩ :: rest) ∧
    (∀ e ∈ added firstRun secondRun,
      createsClaim (archivedCluster.Spec.Name ++ "-xlog") "ns" e = false) ∧
    (∃ rest, secondRun =
      backrestLookup envRetaining archivedCluster "ns" firstRun ++
        ⟨.GetPVC (archivedCluster.Spec.Name ++ "-backrestrepo") "ns",
          (envRetaining.GetPVC (backrestLookup envRetaining archivedCluster "ns" firstRun)
            (archivedCluster.Spec.Name ++ "-backrestrepo") "ns").2⟩ :: rest) ∧
    (∀ e ∈ added firstRun secondRun,
      createsClaim (archivedCluster.Spec.Name ++ "-backrestrepo") "ns" e = false) ∧
    Retains envRetaining ∧
    (∃ x ∈ firstRun, createdClaim "db-xlog" "ns" x = true) ∧
    (∀ e ∈ added firstRun secondRun, createsClaim "db-xlog" "ns" e = false) ∧
    CreatedAtMostOnce firstRun ∧
    CreatedAtMostOnce secondRun ∧
    CreatedAtMostOnce secondRun ∧
    outline firstRun =
      [("GetPVC", none), ("CreatePVC", none), ("GetPVC", none), ("CreatePVC", none),
        ("GetPVC", none), ("CreatePVC", none),
        ("CreateSecret", none), ("Patch /spec/rootsecretname", none),
        ("CreateSecret", none), ("Patch /spec/primarysecretname", none),
        ("CreateSecret", none), ("Patch /spec/usersecretname", none),
        ("Strategy.AddCluster", none), ("Patch /spec/status", none),
        ("Patch /spec/PrimaryStorage/name", none)] ∧
    outline (added firstRun secondRun) =
      [("GetPVC", none), ("GetPVC", none), ("GetPVC", none),
        ("CreateSecret", none), ("Patch /spec/rootsecretname", none),
        ("CreateSecret", none), ("Patch /spec/primarysecretname", none),
        ("CreateSecret", none), ("Patch /spec/usersecretname", none),
        ("Strategy.AddCluster", none), ("Patch /spec/status", none),
        ("Patch /spec/PrimaryStorage/name", none)] := by
  obtain ⟨h1, h2, h3a, h3b, h4a, h4b, h5⟩ :=
    AddClusterBase_claim_reuse envRetaining sampleConsts samplePgo archivedCluster "ns" firstRun
  have hst : archivedCluster.Spec.Status ≠ sampleConsts.UpgradeCompletedStatus := by decide
  have hfound : (envRetaining.GetPVC firstRun archivedCluster.Spec.Name "ns").1 = true := by
    decide
  have hcreated : ∃ x ∈ firstRun, createdClaim "db-xlog" "ns" x = true := by decide
  obtain ⟨h2a, -, h2c⟩ := h2 hfound
  obtain ⟨h5a, h5b, h5c⟩ := h5 retains_envRetaining
  have hfirst : CreatedAtMostOnce firstRun :=
    ((AddClusterBase_claim_reuse envRetaining sampleConsts samplePgo archivedCluster "ns"
      []).2.2.2.2.2.2 retains_envRetaining).2.1 (fun c ns1 => by simp)
  exact ⟨h1 hst, hfound, h2a, h2c succeeds_envRetaining hst (Or.inl rfl),
    h3a hst (by decide) (by decide), h3b (by decide),
    h4a hst (by decide) (by decide) (by decide), h4b (by decide),
    retains_envRetaining, hcreated, h5a "db-xlog" hcreated, hfirst, h5b hfirst,
    h5c archivedCluster,
    by decide, by decide⟩

end Cluster
